import Mathlib

set_option allowUnsafeReducibility true
set_option maxRecDepth 4000
attribute [semireducible] Rat.mul Rat.inv Rat.div Rat.add Rat.sub Rat.neg Rat.blt

/-!
Verification of the MolecuLab molecular ingestion and geometry core.

The TypeScript source is shallowly embedded: JS numbers that only ever hold
exact decimal inputs are modelled as `ℚ` (exact arithmetic idealisation of
IEEE doubles), JS `NaN` from `parseInt`/`parseFloat` is modelled as `Option`
(`none` = NaN), and JS runtime exceptions (caught by the parsers' try/catch)
are modelled with `Except`.  Helper functions named `js...` reproduce the
semantics of the corresponding JavaScript string/number primitives.
-/

-- ═══════════════════════════════════════════════════════════════════════════
-- JS string / number primitives
-- ═══════════════════════════════════════════════════════════════════════════

/-- Split a character list at every (non-overlapping, leftmost) occurrence of
the pattern `pat`, like JS `String.prototype.split` with a string separator.
`fuel` bounds recursion; callers pass the list length, which suffices because
each step consumes at least one character. -/
def splitOnFuel (pat : List Char) : Nat → List Char → List Char → List (List Char)
  | 0, s, acc => [acc.reverse ++ s]
  | fuel + 1, s, acc =>
    match s with
    | [] => [acc.reverse]
    | c :: cs =>
      if pat.isPrefixOf (c :: cs) then
        acc.reverse :: splitOnFuel pat fuel (List.drop pat.length (c :: cs)) []
      else
        splitOnFuel pat fuel cs (c :: acc)

/-- JS `s.split(pat)` for a non-empty string pattern. -/
def jsSplit (s : String) (pat : String) : List String :=
  (splitOnFuel pat.data (s.data.length + 1) s.data []).map String.mk

/-- JS `s.trim()` (both ends; `Char.isWhitespace` stands in for JS `\s`). -/
def jsTrim (s : String) : String :=
  String.mk (((s.data.dropWhile Char.isWhitespace).reverse.dropWhile Char.isWhitespace).reverse)

/-- JS `s.trim().split(/\s+/)` token list.  (For an empty trimmed string JS
yields `[""]` while this yields `[]`; every use site only tests token count
thresholds or indexes tokens, where the two agree.) -/
def jsTokens (s : String) : List String :=
  ((s.data.splitOnP Char.isWhitespace).filter (fun t => t ≠ [])).map String.mk

/-- JS `s.startsWith(pat)`. -/
def jsStartsWith (s : String) (pat : String) : Bool :=
  pat.data.isPrefixOf s.data

/-- JS `s.includes(pat)`. -/
def jsIncludes (s : String) (pat : String) : Bool :=
  (jsSplit s pat).length ≥ 2

/-- JS `s.substring(a, b)` (for `a ≤ b`; clamps at the string length). -/
def jsSubstring (s : String) (a b : Nat) : String :=
  String.mk ((s.data.drop a).take (b - a))

/-- JS `s.substring(a)`. -/
def jsSubstringFrom (s : String) (a : Nat) : String :=
  String.mk (s.data.drop a)

/-- JS `s.toLowerCase()` (ASCII range, which covers filename extensions). -/
def jsToLower (s : String) : String :=
  String.mk (s.data.map Char.toLower)

/-- Leading sign of a numeric literal: returns the sign factor and the rest. -/
def readSign : List Char → Int × List Char
  | '-' :: rest => (-1, rest)
  | '+' :: rest => (1, rest)
  | cs => (1, cs)

/-- Decimal digit run to a natural number. -/
def digitsToNat (ds : List Char) : Nat :=
  ds.foldl (fun n c => n * 10 + (c.toNat - 48)) 0

/-- JS `parseInt(s, 10)`: skip leading whitespace, optional sign, then a
maximal run of decimal digits; `none` models `NaN` (no digits). -/
def jsParseInt (s : String) : Option Int :=
  let cs := s.data.dropWhile Char.isWhitespace
  let (sg, cs) := readSign cs
  let ds := cs.takeWhile Char.isDigit
  if ds = [] then none else some (sg * (digitsToNat ds : Int))

/-- Exponent suffix of a float literal (`e`/`E`, optional sign, digits);
`0` when absent or unparsable, as JS `parseFloat` ignores a bad exponent. -/
def readExp : List Char → Int
  | c :: rest =>
    if c = 'e' ∨ c = 'E' then
      let (sg, r) := readSign rest
      let ds := r.takeWhile Char.isDigit
      if ds = [] then 0 else sg * (digitsToNat ds : Int)
    else 0
  | [] => 0

/-- JS `parseFloat(s)`: optional sign, integer digits, optional fraction,
optional exponent; `none` models `NaN` (no digits at all). -/
def jsParseFloat (s : String) : Option ℚ :=
  let cs := s.data.dropWhile Char.isWhitespace
  let (sg, cs) := readSign cs
  let ip := cs.takeWhile Char.isDigit
  let cs1 := cs.dropWhile Char.isDigit
  let (fp, cs2) :=
    match cs1 with
    | '.' :: r => (r.takeWhile Char.isDigit, r.dropWhile Char.isDigit)
    | _ => (([] : List Char), cs1)
  if ip = [] ∧ fp = [] then none
  else
    let mant : ℚ := (digitsToNat ip : ℚ) + (digitsToNat fp : ℚ) / ((10 : ℚ) ^ fp.length)
    some ((sg : ℚ) * mant * (10 : ℚ) ^ readExp cs2)

/-- JS `a || b` for strings: the empty string is falsy. -/
def jsOr (a b : String) : String := if a = "" then b else a

/-- JS `a || b` where `a` is an optional (possibly `undefined`) string. -/
def jsOrOpt (a : Option String) (b : String) : String :=
  match a with
  | some s => jsOr s b
  | none => b

/-- JS array indexing `l[i]`: `none` models `undefined` (negative or
out-of-range index). -/
def jsIndex (l : List α) (i : Int) : Option α :=
  if i < 0 then none else l.get? i.toNat

/-- `[lo, lo+1, ..., hi-1]` over `Int` (empty when `hi ≤ lo`), the index
sequence of a JS `for (let i = lo; i < hi; i++)` loop. -/
def intRange (lo hi : Int) : List Int :=
  (List.range (hi - lo).toNat).map (fun k => lo + k)

/-- `lines[i]` for a loop index already known to be non-negative and in
range; out-of-range defaults to `""` (such accesses are unreachable at the
use sites, which cap `hi` at `lines.length`). -/
def lineAt (lines : List String) (i : Int) : String :=
  if i < 0 then "" else (lines.get? i.toNat).getD ""

-- ═══════════════════════════════════════════════════════════════════════════
-- Viewer data model (src: types used by the file parsers)
-- ═══════════════════════════════════════════════════════════════════════════

namespace Viewer

structure Atom where
  id : String
  element : String
  position : ℚ × ℚ × ℚ
  color : String
  radius : ℚ
deriving DecidableEq, Repr

structure Bond where
  id : String
  atom1Id : String
  atom2Id : String
  /-- TS declares `1 | 2 | 3` but the MOL parser's `as` cast is unchecked,
  so any integer can be stored. -/
  order : Int
deriving DecidableEq, Repr

structure Molecule where
  id : String
  name : String
  atoms : List Atom
  bonds : List Bond
deriving DecidableEq, Repr

inductive FileFormat where
  | mol | pdb | xyz | sdf | unknown
deriving DecidableEq, Repr

structure ParseResult where
  success : Bool
  molecule : Option Molecule
  error : Option String
  format : FileFormat
deriving DecidableEq, Repr

end Viewer

-- ═══════════════════════════════════════════════════════════════════════════
-- Element data (ELEMENT_COLORS / ELEMENT_RADII in the parser module)
-- ═══════════════════════════════════════════════════════════════════════════

def elementColors (s : String) : Option String :=
  if s = "H" then some "#ffffff" else if s = "C" then some "#00ffcc"
  else if s = "N" then some "#3366ff" else if s = "O" then some "#ff3366"
  else if s = "S" then some "#ffd700" else if s = "P" then some "#ff8800"
  else if s = "F" then some "#90e050" else if s = "Cl" then some "#1ff01f"
  else if s = "Br" then some "#a62929" else if s = "I" then some "#940094"
  else if s = "Na" then some "#ff8800" else if s = "K" then some "#ff8800"
  else if s = "Ca" then some "#ffd700" else if s = "Mg" then some "#ffd700"
  else if s = "Fe" then some "#3366ff" else if s = "Zn" then some "#9933ff"
  else if s = "Cu" then some "#ff8800" else none

def elementRadii (s : String) : Option ℚ :=
  if s = "H" then some (12/10) else if s = "C" then some (17/10)
  else if s = "N" then some (155/100) else if s = "O" then some (152/100)
  else if s = "S" then some (18/10) else if s = "P" then some (18/10)
  else if s = "F" then some (147/100) else if s = "Cl" then some (175/100)
  else if s = "Br" then some (185/100) else if s = "I" then some (198/100)
  else if s = "Na" then some (227/100) else if s = "K" then some (275/100)
  else if s = "Ca" then some (231/100) else if s = "Mg" then some (173/100)
  else if s = "Fe" then some (194/100) else if s = "Zn" then some (139/100)
  else if s = "Cu" then some (14/10) else none

-- ═══════════════════════════════════════════════════════════════════════════
-- FORMAT DETECTION (detectFormat)
-- ═══════════════════════════════════════════════════════════════════════════

/-- `filename.split('.').pop()?.toLowerCase()`. -/
def extOf (filename : String) : String :=
  jsToLower ((jsSplit filename ".").getLastD filename)

/-- Regex `/^\s*\d+\s*$/`: the line is a single integer. -/
def intLineTest (s : String) : Bool :=
  let t := s.data.dropWhile Char.isWhitespace
  let d := t.takeWhile Char.isDigit
  !d.isEmpty && (t.dropWhile Char.isDigit).all Char.isWhitespace

/-- Regex `/^\s*\d+\s+\d+/`: two leading whitespace-separated integers. -/
def twoIntsTest (s : String) : Bool :=
  let t := s.data.dropWhile Char.isWhitespace
  let d1 := t.takeWhile Char.isDigit
  let r1 := t.dropWhile Char.isDigit
  let w := r1.takeWhile Char.isWhitespace
  let r2 := r1.dropWhile Char.isWhitespace
  !d1.isEmpty && !w.isEmpty && !(r2.takeWhile Char.isDigit).isEmpty

/-- The content-sniffing fallback of `detectFormat` (its lines 80-103). -/
def sniffContent (content : String) : Viewer.FileFormat :=
  let lines := jsSplit (jsTrim content) "\n"
  if lines.any (fun l =>
      jsStartsWith l "HEADER" || jsStartsWith l "ATOM" ||
      jsStartsWith l "HETATM" || jsStartsWith l "CRYST1") then .pdb
  else if intLineTest (lines.getD 0 "") then .xyz
  else if lines.length > 3 then
    if twoIntsTest (lines.getD 3 "") then
      if jsIncludes content "$$$$" then .sdf else .mol
    else .unknown
  else .unknown

/-- `detectFormat(content, filename?)`.  The `if (filename)` truthiness test
makes the empty string fall through to content sniffing. -/
def detectFormat (content : String) (filename : Option String) : Viewer.FileFormat :=
  let byExt : Option Viewer.FileFormat :=
    match filename with
    | some f =>
      if f = "" then none
      else
        let e := extOf f
        if e = "mol" ∨ e = "mol2" then some .mol
        else if e = "pdb" then some .pdb
        else if e = "xyz" then some .xyz
        else if e = "sdf" then some .sdf
        else none
    | none => none
  match byExt with
  | some fmt => fmt
  | none => sniffContent content

/-- The extension-to-format table as the specification words it. -/
def extFormat (e : String) : Option Viewer.FileFormat :=
  if e = "mol" ∨ e = "mol2" then some .mol
  else if e = "pdb" then some .pdb
  else if e = "xyz" then some .xyz
  else if e = "sdf" then some .sdf
  else none

-- ═══════════════════════════════════════════════════════════════════════════
-- C2: filename extension takes precedence over content sniffing
-- ═══════════════════════════════════════════════════════════════════════════

/-- C2: for every content string and filename whose (case-insensitive)
extension is one of mol/mol2/pdb/xyz/sdf, `detectFormat` returns the format
named by the extension regardless of content; content sniffing is consulted
exactly when no filename is given or the extension is unrecognized (then an
unmatched sniff yields Unknown, built into `sniffContent`); in particular
`"sample.pdb"` with XYZ-shaped content yields PDB. -/
theorem detectFormat_filename_first :
    (∀ content f fmt, extFormat (extOf f) = some fmt →
        detectFormat content (some f) = fmt) ∧
    (∀ content, detectFormat content none = sniffContent content) ∧
    (∀ content f, extFormat (extOf f) = none →
        detectFormat content (some f) = sniffContent content) ∧
    detectFormat "3\nwater\nO 0 0 0\nH 0.96 0 0\nH -0.24 0.93 0" (some "sample.pdb")
      = Viewer.FileFormat.pdb := by
  refine ⟨?_, ?_, ?_, by decide⟩
  · intro content f fmt h
    by_cases hf : f = ""
    · subst hf
      have he : extFormat (extOf "") = none := by decide
      rw [he] at h
      exact absurd h (by simp)
    · unfold detectFormat
      unfold extFormat at h
      simp only [hf, if_false]
      split_ifs at h <;> simp_all
  · intro content
    rfl
  · intro content f h
    by_cases hf : f = ""
    · subst hf; unfold detectFormat; simp
    · unfold detectFormat
      unfold extFormat at h
      simp only [hf, if_false]
      split_ifs at h
      simp_all

/-- Witness for C2 at a concrete recognized extension. -/
theorem detectFormat_filename_first_witness :
    extFormat (extOf "Sample.XYZ") = some Viewer.FileFormat.xyz ∧
    detectFormat "garbage content" (some "Sample.XYZ") = Viewer.FileFormat.xyz :=
  ⟨by decide, detectFormat_filename_first.1 "garbage content" "Sample.XYZ" _ (by decide)⟩

-- ═══════════════════════════════════════════════════════════════════════════
-- BOND GENERATION (BOND_DISTANCES / getBondDistance / generateBondsFromDistance)
-- ═══════════════════════════════════════════════════════════════════════════

def bondDistances (s : String) : Option ℚ :=
  if s = "H-H" then some (74/100) else if s = "C-C" then some (154/100)
  else if s = "C-H" then some (109/100) else if s = "C-N" then some (147/100)
  else if s = "C-O" then some (143/100) else if s = "N-H" then some (101/100)
  else if s = "O-H" then some (96/100) else if s = "N-N" then some (145/100)
  else if s = "O-O" then some (148/100) else if s = "C-S" then some (182/100)
  else if s = "C-Cl" then some (177/100) else if s = "C-F" then some (135/100)
  else if s = "C-Br" then some (194/100) else none

/-- `BOND_DISTANCES.DEFAULT`. -/
def bondDistanceDefault : ℚ := 16/10

/-- `getBondDistance`: `BOND_DISTANCES[key1] || BOND_DISTANCES[key2] ||
BOND_DISTANCES.DEFAULT`.  The JS `||` falls through on `0`/`NaN`; the table
holds only positive literals, so it coincides with this Option chain. -/
def getBondDistance (el1 el2 : String) : ℚ :=
  ((bondDistances (el1 ++ "-" ++ el2)).orElse
    (fun _ => bondDistances (el2 ++ "-" ++ el1))).getD bondDistanceDefault

/-- Squared Euclidean distance (`dx*dx + dy*dy + dz*dz` in the source). -/
def distSq (p q : ℚ × ℚ × ℚ) : ℚ :=
  (p.1 - q.1) ^ 2 + (p.2.1 - q.2.1) ^ 2 + (p.2.2 - q.2.2) ^ 2

/-- `const tolerance = 0.4; // Angstroms` -/
def bondTolerance : ℚ := 4/10

/-- The unordered index pairs `(i, j)`, `i < j`, in the order the source's
nested `for` loops visit them. -/
def atomPairs (n : Nat) : List (Nat × Nat) :=
  (List.range n).flatMap (fun i => (List.range' (i + 1) (n - (i + 1))).map (fun j => (i, j)))

/-- Body of `generateBondsFromDistance`'s inner loop: `some mk` exactly when
a bond is pushed for the pair, with `mk` awaiting the current `bonds.length`
(used only in the id `"b" + (bonds.length + 1)`).  The source's comparison
`dist <= expectedDist + tolerance` on `dist = Math.sqrt(sq)` is stated on
squares, which is equivalent because both sides are nonnegative and squaring
is monotone there.  The `| _, _ => none` arm is unreachable: `atomPairs`
indices are always in range. -/
def bondStep (atoms : List Viewer.Atom) (ij : Nat × Nat) : Option (Nat → Viewer.Bond) :=
  match jsIndex atoms ij.1, jsIndex atoms ij.2 with
  | some a1, some a2 =>
    if distSq a1.position a2.position
        ≤ (getBondDistance a1.element a2.element + bondTolerance) ^ 2 then
      some (fun len => ⟨"b" ++ toString (len + 1), a1.id, a2.id, 1⟩)
    else none
  | _, _ => none

/-- A JS "push inside a loop" accumulator: step over `l`, appending
`mk bs.length` whenever the step fires. -/
def pushFold (step : α → Option (Nat → β)) (l : List α) (acc : List β) : List β :=
  l.foldl (fun bs x =>
    match step x with
    | some mk => bs ++ [mk bs.length]
    | none => bs) acc

def generateBondsFromDistance (atoms : List Viewer.Atom) : List Viewer.Bond :=
  pushFold (bondStep atoms) (atomPairs atoms.length) []

/-- Materialize a list of counter-awaiting values with consecutive counters
starting at `k` (the running `bonds.length` of a JS push loop). -/
def applyCounters : Nat → List (Nat → β) → List β
  | _, [] => []
  | k, f :: fs => f k :: applyCounters (k + 1) fs

theorem pushFold_eq_applyCounters (step : α → Option (Nat → β)) (l : List α)
    (acc : List β) :
    pushFold step l acc = acc ++ applyCounters acc.length (l.filterMap step) := by
  unfold pushFold
  induction l generalizing acc with
  | nil => simp [applyCounters]
  | cons x xs ih =>
    simp only [List.foldl_cons, List.filterMap_cons]
    cases hx : step x with
    | none => simpa [hx] using ih acc
    | some mk =>
      rw [ih (acc ++ [mk acc.length])]
      simp [applyCounters, List.append_assoc]

theorem mem_applyCounters {b : β} :
    ∀ {k : Nat} {fs : List (Nat → β)}, b ∈ applyCounters k fs → ∃ f ∈ fs, ∃ n, b = f n := by
  intro k fs
  induction fs generalizing k with
  | nil => intro h; exact absurd h (by simp [applyCounters])
  | cons f fs ih =>
    intro h
    rcases List.mem_cons.mp h with h | h
    · exact ⟨f, List.mem_cons_self .., k, h⟩
    · rcases ih h with ⟨g, hg, n, hn⟩
      exact ⟨g, List.mem_cons_of_mem _ hg, n, hn⟩

theorem applyCounters_map (step : α → Option (Nat → β)) (g : β → γ) (h : α → γ)
    (p : α → Bool) (l : List α)
    (hp : ∀ x ∈ l, (p x = true ↔ (step x).isSome = true))
    (hg : ∀ x ∈ l, ∀ mk, step x = some mk → ∀ n, g (mk n) = h x) :
    ∀ k, (applyCounters k (l.filterMap step)).map g = (l.filter p).map h := by
  induction l with
  | nil => intro k; simp [applyCounters]
  | cons x xs ih =>
    intro k
    have hpx := hp x (List.mem_cons_self ..)
    have ih' := ih (fun y hy => hp y (List.mem_cons_of_mem _ hy))
      (fun y hy => hg y (List.mem_cons_of_mem _ hy))
    simp only [List.filterMap_cons, List.filter_cons]
    cases hx : step x with
    | none =>
      have : p x = false := by
        cases hpf : p x
        · rfl
        · exact absurd (hpx.mp hpf) (by simp [hx])
      simp [this, ih' k]
    | some mk =>
      have : p x = true := hpx.mpr (by simp [hx])
      simp [this, applyCounters, hg x (List.mem_cons_self ..) mk hx k, ih' (k + 1)]

theorem jsIndex_mem {l : List α} {i : Int} {a : α} (h : jsIndex l i = some a) :
    a ∈ l := by
  unfold jsIndex at h
  split at h
  · exact absurd h (by simp)
  · exact List.get?_mem h

/-- Every generated bond's endpoint ids are ids of atoms in the input list,
and its order is 1. -/
theorem generateBonds_endpoints {atoms : List Viewer.Atom} {b : Viewer.Bond}
    (hb : b ∈ generateBondsFromDistance atoms) :
    (∃ a ∈ atoms, a.id = b.atom1Id) ∧ (∃ a ∈ atoms, a.id = b.atom2Id) ∧ b.order = 1 := by
  rw [generateBondsFromDistance, pushFold_eq_applyCounters] at hb
  simp only [List.nil_append, List.length_nil] at hb
  rcases mem_applyCounters hb with ⟨mk, hmk, n, hn⟩
  rcases List.mem_filterMap.mp hmk with ⟨ij, _, hstep⟩
  unfold bondStep at hstep
  rcases h1 : jsIndex atoms (ij.1 : Int) with _ | a1
  · rw [h1] at hstep
    exact absurd hstep (by simp)
  rcases h2 : jsIndex atoms (ij.2 : Int) with _ | a2
  · rw [h1, h2] at hstep
    exact absurd hstep (by simp)
  rw [h1, h2] at hstep
  dsimp only at hstep
  by_cases hcond : distSq a1.position a2.position
      ≤ (getBondDistance a1.element a2.element + bondTolerance) ^ 2
  · rw [if_pos hcond] at hstep
    have hmk2 := Option.some.inj hstep
    subst hmk2
    subst hn
    exact ⟨⟨a1, jsIndex_mem h1, rfl⟩, ⟨a2, jsIndex_mem h2, rfl⟩, rfl⟩
  · rw [if_neg hcond] at hstep
    exact absurd hstep (by simp)

-- ═══════════════════════════════════════════════════════════════════════════
-- C3: distance rule of bond inference
-- ═══════════════════════════════════════════════════════════════════════════

/-- Hydrogen atom fixtures for the spec's BondInferenceEngine example. -/
def hAtomA : Viewer.Atom := ⟨"H1", "H", (0, 0, 0), "#ffffff", 12/10⟩

def hAtomB074 : Viewer.Atom := ⟨"H2", "H", (74/100, 0, 0), "#ffffff", 12/10⟩

def hAtomB5 : Viewer.Atom := ⟨"H2", "H", (5, 0, 0), "#ffffff", 12/10⟩

/-- C3: bond inference emits a bond for the unordered pair (i, j) iff the
distance between the atoms is at most the symmetric table lookup (default
1.6 Å) plus the 0.4 Å tolerance (stated on squares, equivalently); all
emitted bonds are single.  Two H atoms 0.74 Å apart give exactly one single
bond; 5.0 Å apart give none. -/
theorem generateBonds_distance_rule :
    (∀ atoms : List Viewer.Atom, ∀ b ∈ generateBondsFromDistance atoms, b.order = 1) ∧
    (∀ atoms : List Viewer.Atom,
      (generateBondsFromDistance atoms).map (fun b => (some b.atom1Id, some b.atom2Id))
        = ((atomPairs atoms.length).filter (fun ij =>
            match jsIndex atoms (ij.1 : Int), jsIndex atoms (ij.2 : Int) with
            | some a1, some a2 =>
              decide (distSq a1.position a2.position
                ≤ (getBondDistance a1.element a2.element + bondTolerance) ^ 2)
            | _, _ => false)).map (fun ij =>
              ((jsIndex atoms (ij.1 : Int)).map Viewer.Atom.id,
               (jsIndex atoms (ij.2 : Int)).map Viewer.Atom.id))) ∧
    generateBondsFromDistance [hAtomA, hAtomB074] = [⟨"b1", "H1", "H2", 1⟩] ∧
    generateBondsFromDistance [hAtomA, hAtomB5] = [] := by
  refine ⟨?_, ?_, by decide, by decide⟩
  · intro atoms b hb
    exact (generateBonds_endpoints hb).2.2
  · intro atoms
    rw [generateBondsFromDistance, pushFold_eq_applyCounters]
    simp only [List.nil_append, List.length_nil]
    apply applyCounters_map
    · intro ij _
      unfold bondStep
      rcases h1 : jsIndex atoms (ij.1 : Int) with _ | a1
      · simp [h1]
      rcases h2 : jsIndex atoms (ij.2 : Int) with _ | a2
      · simp [h1, h2]
      dsimp only
      by_cases hcond : distSq a1.position a2.position
          ≤ (getBondDistance a1.element a2.element + bondTolerance) ^ 2
      · simp [hcond]
      · simp [hcond]
    · intro ij _ mk hstep n
      unfold bondStep at hstep
      rcases h1 : jsIndex atoms (ij.1 : Int) with _ | a1 <;> rw [h1] at hstep
      · exact absurd hstep (by simp)
      rcases h2 : jsIndex atoms (ij.2 : Int) with _ | a2 <;> rw [h2] at hstep
      · exact absurd hstep (by simp)
      dsimp only at hstep
      by_cases hcond : distSq a1.position a2.position
          ≤ (getBondDistance a1.element a2.element + bondTolerance) ^ 2
      · rw [if_pos hcond] at hstep
        have hmk2 := Option.some.inj hstep
        subst hmk2
        simp [h1, h2]
      · rw [if_neg hcond] at hstep
        exact absurd hstep (by simp)

/-- Witness for C3: the single inferred H-H bond at 0.74 Å has order 1. -/
theorem generateBonds_distance_rule_witness :
    (⟨"b1", "H1", "H2", 1⟩ : Viewer.Bond).order = 1 :=
  generateBonds_distance_rule.1 [hAtomA, hAtomB074] ⟨"b1", "H1", "H2", 1⟩ (by decide)

-- ═══════════════════════════════════════════════════════════════════════════
-- XYZ PARSER (parseXYZ)
-- ═══════════════════════════════════════════════════════════════════════════

/-- Body of the XYZ atom loop at line index `i` (a `continue` is `none`). -/
def xyzAtomLine (lines : List String) (i : Int) : Option Viewer.Atom :=
  let parts := jsTokens (jsTrim (lineAt lines i))
  if parts.length < 4 then none
  else
    let element := parts.getD 0 ""
    match jsParseFloat (parts.getD 1 ""), jsParseFloat (parts.getD 2 ""),
        jsParseFloat (parts.getD 3 "") with
    | some x, some y, some z =>
      some ⟨element ++ toString (i - 1), element, (x, y, z),
            (elementColors element).getD "#888888", (elementRadii element).getD (3/2)⟩
    | _, _, _ => none

/-- `parseXYZ(content, name?)`; `now` models the `Date.now()` timestamp used
in the molecule id. -/
def parseXYZ (content : String) (name : Option String) (now : Nat) : Viewer.ParseResult :=
  let lines := jsSplit (jsTrim content) "\n"
  if lines.length < 3 then
    ⟨false, none, some "Invalid XYZ file: too few lines", .xyz⟩
  else
    match jsParseInt (jsTrim (lineAt lines 0)) with
    | none =>
      ⟨false, none, some "Invalid XYZ file: first line must be atom count", .xyz⟩
    | some atomCount =>
      let comment := jsTrim (lineAt lines 1)
      let atoms := (intRange 2 (min (2 + atomCount) (lines.length : Int))).filterMap
        (xyzAtomLine lines)
      let bonds := generateBondsFromDistance atoms
      ⟨true, some ⟨"xyz-" ++ toString now,
        jsOrOpt name (jsOr comment "Imported Molecule"), atoms, bonds⟩, none, .xyz⟩

/-- The spec's XYZ water fixture. -/
def xyzWater : String := "3\nwater\nO 0 0 0\nH 0.96 0 0\nH -0.24 0.93 0"

-- ═══════════════════════════════════════════════════════════════════════════
-- C4: XYZ fatal-failure condition
-- ═══════════════════════════════════════════════════════════════════════════

/-- The claim's notion "the line is an integer": an optional sign followed by
nothing but digits (at least one). -/
def isIntegerString (s : String) : Bool :=
  let (_, ds) := readSign s.data
  !ds.isEmpty && ds.all Char.isDigit

/-- C4 counterexample: the header line `"3x"` is not an integer, yet the
parse succeeds — JS `parseInt` accepts any line that merely starts with an
integer, so "first line is not an integer" does not imply failure. -/
theorem parseXYZ_nonint_header_counterexample :
    (parseXYZ "3x\nc\nH 0 0 0" none 0).success = true ∧
    isIntegerString "3x" = false := by
  constructor
  · decide
  · decide

/-- C4 (amended): `parseXYZ` fails exactly when the (trimmed) file has fewer
than 3 lines or `parseInt` of the header is NaN, i.e. the header does not
begin with an integer; malformed data lines are skipped without failing
(concretely: a 5-line file with one bad data line still succeeds, with the
bad line dropped). -/
theorem parseXYZ_failure_iff :
    (∀ content name now,
      (parseXYZ content name now).success = false ↔
        ((jsSplit (jsTrim content) "\n").length < 3 ∨
          jsParseInt (jsTrim (lineAt (jsSplit (jsTrim content) "\n") 0)) = none)) ∧
    (parseXYZ "5\nc\nH 0 0 0\nbad\nH 1 1 1" none 0).success = true ∧
    ((parseXYZ "5\nc\nH 0 0 0\nbad\nH 1 1 1" none 0).molecule.map
        (fun m => m.atoms.length)) = some 2 := by
  refine ⟨?_, by decide, by decide⟩
  intro content name now
  unfold parseXYZ
  by_cases h3 : (jsSplit (jsTrim content) "\n").length < 3
  · simp [h3]
  · cases hh : jsParseInt (jsTrim (lineAt (jsSplit (jsTrim content) "\n") 0)) with
    | none => simp [h3, hh]
    | some n => simp [h3, hh]

-- ═══════════════════════════════════════════════════════════════════════════
-- C8: XYZ molecule-name fallback chain
-- ═══════════════════════════════════════════════════════════════════════════

/-- C8 counterexample: with a non-empty comment line `"water"` AND a
caller-supplied name `"file.xyz"`, the parsed name is the caller's name, not
the comment line — the source computes `name || comment || 'Imported
Molecule'`, so the caller name wins. -/
theorem parseXYZ_name_counterexample :
    ((parseXYZ xyzWater (some "file.xyz") 0).molecule.map Viewer.Molecule.name)
        = some "file.xyz" ∧
    jsTrim (lineAt (jsSplit (jsTrim xyzWater) "\n") 1) = "water" := by
  constructor
  · decide
  · decide

/-- C8 (amended): a successfully parsed XYZ molecule's name follows the
chain caller-supplied name (when non-empty), else the (trimmed) comment
line (when non-empty), else `"Imported Molecule"`. -/
theorem parseXYZ_name_chain :
    ∀ content name now mol, (parseXYZ content name now).molecule = some mol →
      mol.name = jsOrOpt name
        (jsOr (jsTrim (lineAt (jsSplit (jsTrim content) "\n") 1)) "Imported Molecule") := by
  intro content name now mol h
  unfold parseXYZ at h
  by_cases h3 : (jsSplit (jsTrim content) "\n").length < 3
  · rw [if_pos h3] at h
    exact absurd h (by simp)
  · rw [if_neg h3] at h
    cases hh : jsParseInt (jsTrim (lineAt (jsSplit (jsTrim content) "\n") 0)) with
    | none =>
      rw [hh] at h
      exact absurd h (by simp)
    | some n =>
      rw [hh] at h
      dsimp only at h
      cases Option.some.inj h
      rfl

/-- Witness for C8's amended chain: caller name `"foo"` beats comment. -/
theorem parseXYZ_name_chain_witness :
    ∃ mol, (parseXYZ xyzWater (some "foo") 0).molecule = some mol ∧ mol.name = "foo" := by
  refine ⟨_, rfl, ?_⟩
  rw [parseXYZ_name_chain xyzWater (some "foo") 0 _ rfl]
  decide

-- ═══════════════════════════════════════════════════════════════════════════
-- MOL PARSER (parseMOL)
-- ═══════════════════════════════════════════════════════════════════════════

/-- JS `order || 1` on a `parseInt` result: `NaN` and `0` are falsy. -/
def jsOrInt (o : Option Int) : Int :=
  match o with
  | some v => if v = 0 then 1 else v
  | none => 1

/-- Body of the MOL atom loop at line index `i`. -/
def molAtomLine (lines : List String) (i : Int) : Option Viewer.Atom :=
  let parts := jsTokens (jsTrim (lineAt lines i))
  if parts.length < 4 then none
  else
    match jsParseFloat (parts.getD 0 ""), jsParseFloat (parts.getD 1 ""),
        jsParseFloat (parts.getD 2 "") with
    | some x, some y, some z =>
      let element := parts.getD 3 ""
      some ⟨element ++ toString (i - 3), element, (x, y, z),
            (elementColors element).getD "#888888", (elementRadii element).getD (3/2)⟩
    | _, _, _ => none

/-- Body of the MOL bond loop at line index `i`.  The source's range guard
`atom1Idx >= 0 && atom1Idx < atoms.length && ...` (false on NaN) is exactly
definedness of `atoms[atom1Idx]`, i.e. of `jsIndex`; the 1-based file indices
are decremented before indexing, and `order || 1` is `jsOrInt`. -/
def molBondLine (lines : List String) (atoms : List Viewer.Atom)
    (bondStart i : Int) : Option Viewer.Bond :=
  let parts := jsTokens (jsTrim (lineAt lines i))
  if parts.length < 3 then none
  else
    let atom1Idx := (jsParseInt (parts.getD 0 "")).map (fun v => v - 1)
    let atom2Idx := (jsParseInt (parts.getD 1 "")).map (fun v => v - 1)
    let order := jsParseInt (parts.getD 2 "")
    match atom1Idx.bind (jsIndex atoms), atom2Idx.bind (jsIndex atoms) with
    | some a1, some a2 =>
      some ⟨"b" ++ toString (i - bondStart + 1), a1.id, a2.id, jsOrInt order⟩
    | _, _ => none

/-- `parseMOL(content, name?)`.  The branch returning the TypeError Failure
models the source's try/catch: when `4 + atomCount < 0` and `bondCount > 0`
the JS bond loop starts at a negative index, `lines[i]` is `undefined`, and
`.trim()` throws. -/
def parseMOL (content : String) (name : Option String) (now : Nat) : Viewer.ParseResult :=
  let lines := jsSplit (jsTrim content) "\n"
  if lines.length < 5 then
    ⟨false, none, some "Invalid MOL file: too few lines", .mol⟩
  else
    let molName := jsOr (jsTrim (lineAt lines 0)) (jsOrOpt name "Imported Molecule")
    let countsParts := jsTokens (jsTrim (lineAt lines 3))
    match jsParseInt (countsParts.getD 0 ""), jsParseInt (countsParts.getD 1 "") with
    | some atomCount, some bondCount =>
      if 4 + atomCount < 0 ∧ 0 < bondCount then
        ⟨false, none, some "Failed to parse MOL: TypeError", .mol⟩
      else
        let atoms := (intRange 4 (min (4 + atomCount) (lines.length : Int))).filterMap
          (molAtomLine lines)
        let bondStart := 4 + atomCount
        let bonds := (intRange bondStart (min (bondStart + bondCount) (lines.length : Int))).filterMap
          (molBondLine lines atoms bondStart)
        ⟨true, some ⟨"mol-" ++ toString now, molName, atoms, bonds⟩, none, .mol⟩
    | _, _ => ⟨false, none, some "Invalid MOL file: cannot parse counts line", .mol⟩

/-- MOL fixture: counts line `3  2`, three atom lines, two bond lines. -/
def molFixture : String :=
  "water\n\n\n  3  2  0  0  0  0  0  0  0  0999 V2000\n    0.0000    0.0000    0.0000 O   0  0\n    0.9600    0.0000    0.0000 H   0  0\n   -0.2400    0.9300    0.0000 H   0  0\n  1  2  1  0\n  1  3  1  0"

/-- Same fixture with bond orders `0` (falsy, defaulted to 1) and `2`. -/
def molFixtureOrders : String :=
  "water\n\n\n  3  2  0  0  0  0  0  0  0  0999 V2000\n    0.0000    0.0000    0.0000 O   0  0\n    0.9600    0.0000    0.0000 H   0  0\n   -0.2400    0.9300    0.0000 H   0  0\n  1  2  0  0\n  1  3  2  0"

-- ═══════════════════════════════════════════════════════════════════════════
-- C5: MOL bond lines are 1-based, order defaults to 1 on zero/NaN
-- ═══════════════════════════════════════════════════════════════════════════

/-- C5: every well-formed MOL bond line's endpoints are interpreted 1-based
and decremented before indexing the atom array, with order `o || 1`
(defaulted to 1 when zero or unparsable); the 3-atom/2-bond fixture yields
exactly 2 explicit bonds whose 0-based endpoints are the file values minus
one, and a zero order token becomes 1 while other orders pass through. -/
theorem parseMOL_bond_indexing :
    (∀ (lines : List String) (atoms : List Viewer.Atom) (bondStart i a b : Int),
      ¬ (jsTokens (jsTrim (lineAt lines i))).length < 3 →
      jsParseInt ((jsTokens (jsTrim (lineAt lines i))).getD 0 "") = some a →
      jsParseInt ((jsTokens (jsTrim (lineAt lines i))).getD 1 "") = some b →
      ∀ a1 a2, jsIndex atoms (a - 1) = some a1 → jsIndex atoms (b - 1) = some a2 →
        molBondLine lines atoms bondStart i
          = some ⟨"b" ++ toString (i - bondStart + 1), a1.id, a2.id,
                  jsOrInt (jsParseInt ((jsTokens (jsTrim (lineAt lines i))).getD 2 ""))⟩) ∧
    ((parseMOL molFixture none 0).molecule.map Viewer.Molecule.bonds)
      = some [⟨"b1", "O1", "H2", 1⟩, ⟨"b2", "O1", "H3", 1⟩] ∧
    ((parseMOL molFixtureOrders none 0).molecule.map Viewer.Molecule.bonds)
      = some [⟨"b1", "O1", "H2", 1⟩, ⟨"b2", "O1", "H3", 2⟩] := by
  refine ⟨?_, by decide, by decide⟩
  intro lines atoms bondStart i a b hlen ha hb a1 a2 h1 h2
  unfold molBondLine
  rw [if_neg hlen, ha, hb]
  simp [h1, h2]

/-- Witness for C5's per-line rule: bond line `"2 1 3"` at index 5 with
`bondStart = 5` gives endpoints `atoms[1]`, `atoms[0]` and order 3. -/
theorem parseMOL_bond_indexing_witness :
    molBondLine ["t", "", "", "1 1", "a"] [hAtomA, hAtomB074] 5 5 = none ∧
    molBondLine ["t", "", "", "1 1", "a", "2 1 3"] [hAtomA, hAtomB074] 5 5
      = some ⟨"b1", "H2", "H1", 3⟩ := by
  constructor
  · decide
  · have := parseMOL_bond_indexing.1 ["t", "", "", "1 1", "a", "2 1 3"]
      [hAtomA, hAtomB074] 5 5 2 1 (by decide) (by decide) (by decide)
      hAtomB074 hAtomA (by decide) (by decide)
    rw [this]
    decide

-- ═══════════════════════════════════════════════════════════════════════════
-- PDB PARSER (parsePDB / parsePDBBonds)
-- ═══════════════════════════════════════════════════════════════════════════

/-- Join with a separator (JS `Array.prototype.join`). -/
def sIntercalate (sep : String) : List String → String
  | [] => ""
  | [x] => x
  | x :: xs => x ++ sep ++ sIntercalate sep xs

/-- JS `s.replace(pat, repl)` with a string pattern: first occurrence only. -/
def jsReplaceFirst (s pat repl : String) : String :=
  match jsSplit s pat with
  | [] => s
  | [_] => s
  | p0 :: p1 :: rest => p0 ++ repl ++ sIntercalate pat (p1 :: rest)

/-- The HEADER/COMPND name-extraction loop of `parsePDB` (first matching
line wins; both record kinds `break` out of the same loop). -/
def pdbName (lines : List String) (fallback : String) : String :=
  match lines.find? (fun l => jsStartsWith l "HEADER"
      || (jsStartsWith l "COMPND" && jsIncludes l "MOLECULE:")) with
  | none => fallback
  | some l =>
    if jsStartsWith l "HEADER" then jsOr (jsTrim (jsSubstring l 10 50)) fallback
    else
      match (jsSplit l "MOLECULE:").get? 1 with
      | some s => jsOr (jsReplaceFirst (jsTrim s) ";" "") fallback
      | none => fallback

/-- `""` or the first character, JS `str.charAt(0)`. -/
def charAt0 (cs : List Char) : String :=
  match cs with
  | [] => ""
  | c :: _ => String.mk [c]

/-- `${serial}` where `serial` may be NaN. -/
def intOptToString (o : Option Int) : String :=
  match o with
  | some n => toString n
  | none => "NaN"

/-- One ATOM/HETATM record of `parsePDB` (fixed-width columns). -/
def pdbAtomLine (line : String) : Option Viewer.Atom :=
  if !jsStartsWith line "ATOM" && !jsStartsWith line "HETATM" then none
  else
    let serial := jsParseInt (jsTrim (jsSubstring line 6 11))
    let atomName := jsTrim (jsSubstring line 12 16)
    let el0 := jsTrim (jsSubstring line 76 78)
    let element := if el0 = "" then charAt0 (atomName.data.filter (fun c => !c.isDigit)) else el0
    match jsParseFloat (jsTrim (jsSubstring line 30 38)),
        jsParseFloat (jsTrim (jsSubstring line 38 46)),
        jsParseFloat (jsTrim (jsSubstring line 46 54)) with
    | some x, some y, some z =>
      some ⟨element ++ intOptToString serial, element, (x, y, z),
            (elementColors element).getD "#888888", (elementRadii element).getD (3/2)⟩
    | _, _, _ => none

/-- JS `<` against a possibly-NaN left operand (false on NaN). -/
def jsLtB (o : Option Int) (n : Int) : Bool :=
  match o with
  | some v => v < n
  | none => false

/-- JS `>=` against a possibly-NaN left operand (false on NaN). -/
def jsGeB (o : Option Int) (n : Int) : Bool :=
  match o with
  | some v => n ≤ v
  | none => false

/-- JS `Math.min` (NaN absorbs). -/
def jsMinO (a b : Option Int) : Option Int :=
  match a, b with
  | some x, some y => some (min x y)
  | _, _ => none

/-- JS `Math.max` (NaN absorbs). -/
def jsMaxO (a b : Option Int) : Option Int :=
  match a, b with
  | some x, some y => some (max x y)
  | _, _ => none

/-- `${idx}` where `idx` may be NaN (the dedup key components). -/
def nanKey (o : Option Int) : String := intOptToString o

/-- Inner CONECT loop over the target serials (`parts[1..]`).  State is
`(bonds, seen keys)`.  The `Except.error` arm models the JS TypeError from
`atoms[NaN].id` / `atoms[undefinedIdx].id`: it is reached exactly when the
range guard (all comparisons false on NaN) fails to skip an index that does
not resolve to an atom. -/
def conectTargets (atoms : List Viewer.Atom) (sourceIdx : Option Int) :
    List (Option Int) → List Viewer.Bond × List String →
      Except Unit (List Viewer.Bond × List String)
  | [], st => .ok st
  | t :: ts, (bonds, seen) =>
    let targetIdx := t.map (fun v => v - 1)
    if jsLtB sourceIdx 0 || jsGeB sourceIdx atoms.length
        || jsLtB targetIdx 0 || jsGeB targetIdx atoms.length then
      conectTargets atoms sourceIdx ts (bonds, seen)
    else
      let key := nanKey (jsMinO sourceIdx targetIdx) ++ "-" ++ nanKey (jsMaxO sourceIdx targetIdx)
      if key ∈ seen then conectTargets atoms sourceIdx ts (bonds, seen)
      else
        match sourceIdx.bind (jsIndex atoms), targetIdx.bind (jsIndex atoms) with
        | some a1, some a2 =>
          conectTargets atoms sourceIdx ts
            (bonds ++ [⟨"b" ++ toString (bonds.length + 1), a1.id, a2.id, 1⟩], key :: seen)
        | _, _ => .error ()

/-- Outer CONECT loop over the CONECT lines. -/
def conectLines (atoms : List Viewer.Atom) :
    List String → List Viewer.Bond × List String →
      Except Unit (List Viewer.Bond × List String)
  | [], st => .ok st
  | l :: ls, st =>
    let parts := (jsTokens (jsTrim (jsSubstringFrom l 6))).map jsParseInt
    let sourceIdx := ((parts.getD 0 none).map (fun v => v - 1))
    match conectTargets atoms sourceIdx (parts.drop 1) st with
    | .error e => .error e
    | .ok st' => conectLines atoms ls st'

/-- `parsePDBBonds(content, atoms)`: `ok none` models the JS `null` returns
(no CONECT lines, or no bonds materialized), `error` the propagated
TypeError. -/
def parsePDBBonds (content : String) (atoms : List Viewer.Atom) :
    Except Unit (Option (List Viewer.Bond)) :=
  let ls := (jsSplit content "\n").filter (fun l => jsStartsWith l "CONECT")
  if ls.length = 0 then .ok none
  else
    match conectLines atoms ls ([], []) with
    | .error e => .error e
    | .ok (bonds, _) => .ok (if bonds.length > 0 then some bonds else none)

/-- `parsePDB(content, name?)`; the `.error` branch is the try/catch
returning `Failed to parse PDB: ...`. -/
def parsePDB (content : String) (name : Option String) (now : Nat) : Viewer.ParseResult :=
  let lines := jsSplit (jsTrim content) "\n"
  let molName := pdbName lines (jsOrOpt name "PDB Structure")
  let atoms := lines.filterMap pdbAtomLine
  match parsePDBBonds content atoms with
  | .error _ => ⟨false, none, some "Failed to parse PDB: TypeError", .pdb⟩
  | .ok r =>
    ⟨true, some ⟨"pdb-" ++ toString now, molName, atoms,
      r.getD (generateBondsFromDistance atoms)⟩, none, .pdb⟩

-- ═══════════════════════════════════════════════════════════════════════════
-- SDF PARSER and MAIN ENTRY (parseSDF / parseFile)
-- ═══════════════════════════════════════════════════════════════════════════

def parseSDF (content : String) (name : Option String) (now : Nat) : Viewer.ParseResult :=
  let molBlocks := jsSplit content "$$$$"
  if molBlocks.length = 0 ∨ jsTrim (molBlocks.getD 0 "") = "" then
    ⟨false, none, some "Invalid SDF file: no molecule data", .sdf⟩
  else
    let result := parseMOL (molBlocks.getD 0 "") name now
    { result with format := .sdf }

def parseFile (content : String) (filename : Option String) (now : Nat) : Viewer.ParseResult :=
  match detectFormat content filename with
  | .xyz => parseXYZ content filename now
  | .mol => parseMOL content filename now
  | .pdb => parsePDB content filename now
  | .sdf => parseSDF content filename now
  | .unknown => ⟨false, none, some "Unknown file format", .unknown⟩

-- ═══════════════════════════════════════════════════════════════════════════
-- CONECT loop invariants
-- ═══════════════════════════════════════════════════════════════════════════

/-- Bond endpoints resolve to atoms of `atoms`. -/
def endpointsIn (atoms : List Viewer.Atom) (b : Viewer.Bond) : Prop :=
  (∃ a ∈ atoms, a.id = b.atom1Id) ∧ (∃ a ∈ atoms, a.id = b.atom2Id)

theorem conectTargets_ok_endpoints {atoms : List Viewer.Atom} {src : Option Int}
    {ts : List (Option Int)} {st st' : List Viewer.Bond × List String}
    (h : conectTargets atoms src ts st = .ok st')
    (hinv : ∀ b ∈ st.1, endpointsIn atoms b) :
    ∀ b ∈ st'.1, endpointsIn atoms b := by
  induction ts generalizing st with
  | nil =>
    unfold conectTargets at h
    cases Except.ok.inj h
    exact hinv
  | cons t ts ih =>
    obtain ⟨bonds, seen⟩ := st
    unfold conectTargets at h
    dsimp only at h
    split at h
    · exact ih h hinv
    · split at h
      · exact ih h hinv
      · rcases h1 : src.bind (jsIndex atoms) with _ | a1 <;> rw [h1] at h
        · exact absurd h (by simp)
        rcases h2 : (t.map (fun v => v - 1)).bind (jsIndex atoms) with _ | a2 <;>
          rw [h2] at h
        · exact absurd h (by simp)
        refine ih h ?_
        intro b hb
        rcases List.mem_append.mp hb with hb | hb
        · exact hinv b hb
        · rcases List.mem_singleton.mp hb with rfl
          exact ⟨⟨a1, jsIndex_mem (Option.bind_eq_some.mp h1).choose_spec.2, rfl⟩,
                 ⟨a2, jsIndex_mem (Option.bind_eq_some.mp h2).choose_spec.2, rfl⟩⟩

theorem conectLines_ok_endpoints {atoms : List Viewer.Atom}
    {ls : List String} {st st' : List Viewer.Bond × List String}
    (h : conectLines atoms ls st = .ok st')
    (hinv : ∀ b ∈ st.1, endpointsIn atoms b) :
    ∀ b ∈ st'.1, endpointsIn atoms b := by
  induction ls generalizing st with
  | nil =>
    unfold conectLines at h
    cases Except.ok.inj h
    exact hinv
  | cons l ls ih =>
    unfold conectLines at h
    dsimp only at h
    rcases hc : conectTargets atoms
        (((((jsTokens (jsTrim (jsSubstringFrom l 6))).map jsParseInt).getD 0 none).map
          (fun v => v - 1))) ((((jsTokens (jsTrim (jsSubstringFrom l 6))).map jsParseInt)).drop 1)
        st with e | st2 <;> rw [hc] at h
    · exact absurd h (by simp)
    · exact ih h (conectTargets_ok_endpoints hc hinv)

theorem parsePDBBonds_ok_endpoints {content : String} {atoms : List Viewer.Atom}
    {bonds : List Viewer.Bond}
    (h : parsePDBBonds content atoms = .ok (some bonds)) :
    ∀ b ∈ bonds, endpointsIn atoms b := by
  unfold parsePDBBonds at h
  dsimp only at h
  split at h
  · exact absurd (Except.ok.inj h) (by simp)
  · rcases hc : conectLines atoms
        ((jsSplit content "\n").filter (fun l => jsStartsWith l "CONECT")) ([], []) with
        e | st <;> rw [hc] at h
    · exact absurd h (by simp)
    · obtain ⟨bs, seen⟩ := st
      dsimp only at h
      split at h
      · cases Option.some.inj (Except.ok.inj h)
        exact conectLines_ok_endpoints hc (by intro b hb; exact absurd hb (by simp))
      · exact absurd (Except.ok.inj h) (by simp)

-- ═══════════════════════════════════════════════════════════════════════════
-- C10: parsePDB success behaviour
-- ═══════════════════════════════════════════════════════════════════════════

/-- PDB fixture: two HETATM records and a CONECT line whose serials are out
of range, so zero valid bonds are materialized. -/
def pdbConect79 : String :=
  "HETATM    1  O   HOH     1       0.000   0.000   0.000           O\nHETATM    2  H1  HOH     1       0.960   0.000   0.000           H\nCONECT    7    9"

/-- PDB fixture: the same two HETATM records with an in-range CONECT line,
so an explicit bond is materialized. -/
def pdbConect12 : String :=
  "HETATM    1  O   HOH     1       0.000   0.000   0.000           O\nHETATM    2  H1  HOH     1       0.960   0.000   0.000           H\nCONECT    1    2"

/-- C10 counterexample: `parsePDB` is NOT total-success.  On content
`"CONECT x y"` the unparsable serials become NaN, every range comparison on
NaN is false so the guard does not skip, and `atoms[NaN].id` throws — the
try/catch returns a Failure. -/
theorem parsePDB_conect_nan_counterexample :
    (parsePDB "CONECT x y" none 0).success = false ∧
    (parsePDB "CONECT x y" none 0).error = some "Failed to parse PDB: TypeError" := by
  constructor
  · decide
  · decide

instance {e a : Type} [DecidableEq e] [DecidableEq a] : DecidableEq (Except e a) := fun x y =>
  match x, y with
  | .error u, .error v =>
    if h : u = v then .isTrue (by rw [h]) else .isFalse (fun hc => by cases hc; exact h rfl)
  | .ok u, .ok v =>
    if h : u = v then .isTrue (by rw [h]) else .isFalse (fun hc => by cases hc; exact h rfl)
  | .error _, .ok _ => .isFalse (fun hc => by cases hc)
  | .ok _, .error _ => .isFalse (fun hc => by cases hc)

/-- Concrete molecule values used in C10's witness. -/
def pdbEmptyMol : Viewer.Molecule := ⟨"pdb-0", "PDB Structure", [], []⟩

def pdbConect79Mol : Viewer.Molecule :=
  ⟨"pdb-0", "PDB Structure",
    [⟨"O1", "O", (0, 0, 0), "#ff3366", 38/25⟩,
     ⟨"H2", "H", (24/25, 0, 0), "#ffffff", 6/5⟩],
    [⟨"b1", "O1", "H2", 1⟩]⟩

-- ═══════════════════════════════════════════════════════════════════════════
-- C1: parsed bonds reference existing atoms
-- ═══════════════════════════════════════════════════════════════════════════

theorem molBondLine_endpoints {lines : List String} {atoms : List Viewer.Atom}
    {bondStart i : Int} {b : Viewer.Bond}
    (h : molBondLine lines atoms bondStart i = some b) : endpointsIn atoms b := by
  unfold molBondLine at h
  dsimp only at h
  split at h
  · exact absurd h (by simp)
  · rcases h1 : ((jsParseInt ((jsTokens (jsTrim (lineAt lines i))).getD 0 "")).map
        (fun v => v - 1)).bind (jsIndex atoms) with _ | a1 <;> rw [h1] at h
    · exact absurd h (by simp)
    rcases h2 : ((jsParseInt ((jsTokens (jsTrim (lineAt lines i))).getD 1 "")).map
        (fun v => v - 1)).bind (jsIndex atoms) with _ | a2 <;> rw [h2] at h
    · exact absurd h (by simp)
    dsimp only at h
    cases Option.some.inj h
    exact ⟨⟨a1, jsIndex_mem (Option.bind_eq_some.mp h1).choose_spec.2, rfl⟩,
           ⟨a2, jsIndex_mem (Option.bind_eq_some.mp h2).choose_spec.2, rfl⟩⟩

theorem parseXYZ_bonds_resolve {content : String} {name : Option String} {now : Nat}
    {mol : Viewer.Molecule} (h : (parseXYZ content name now).molecule = some mol) :
    ∀ b ∈ mol.bonds, endpointsIn mol.atoms b := by
  unfold parseXYZ at h
  dsimp only at h
  split at h
  · exact absurd h (by simp)
  · rcases hc : jsParseInt (jsTrim (lineAt (jsSplit (jsTrim content) "\n") 0)) with
      _ | atomCount <;> rw [hc] at h
    · exact absurd h (by simp)
    · dsimp only at h
      cases Option.some.inj h
      intro b hb
      exact ⟨(generateBonds_endpoints hb).1, (generateBonds_endpoints hb).2.1⟩

theorem parseMOL_bonds_resolve {content : String} {name : Option String} {now : Nat}
    {mol : Viewer.Molecule} (h : (parseMOL content name now).molecule = some mol) :
    ∀ b ∈ mol.bonds, endpointsIn mol.atoms b := by
  unfold parseMOL at h
  dsimp only at h
  split at h
  · exact absurd h (by simp)
  · rcases hc0 : jsParseInt ((jsTokens (jsTrim (lineAt (jsSplit (jsTrim content) "\n") 3))).getD 0 "") with
      _ | atomCount <;> rw [hc0] at h
    · exact absurd h (by simp)
    rcases hc1 : jsParseInt ((jsTokens (jsTrim (lineAt (jsSplit (jsTrim content) "\n") 3))).getD 1 "") with
      _ | bondCount <;> rw [hc1] at h
    · exact absurd h (by simp)
    dsimp only at h
    split at h
    · exact absurd h (by simp)
    · cases Option.some.inj h
      intro b hb
      rcases List.mem_filterMap.mp hb with ⟨i, _, hline⟩
      exact molBondLine_endpoints hline

theorem parsePDB_bonds_resolve {content : String} {name : Option String} {now : Nat}
    {mol : Viewer.Molecule} (h : (parsePDB content name now).molecule = some mol) :
    ∀ b ∈ mol.bonds, endpointsIn mol.atoms b := by
  unfold parsePDB at h
  dsimp only at h
  rcases hpb : parsePDBBonds content
      ((jsSplit (jsTrim content) "\n").filterMap pdbAtomLine) with e | r <;>
    rw [hpb] at h
  · exact absurd h (by simp)
  · dsimp only at h
    cases Option.some.inj h
    intro b hb
    rcases r with _ | bonds
    · exact ⟨(generateBonds_endpoints hb).1, (generateBonds_endpoints hb).2.1⟩
    · exact parsePDBBonds_ok_endpoints hpb b hb

theorem parseResult_update_format_molecule (r : Viewer.ParseResult)
    (f : Viewer.FileFormat) :
    ({ r with format := f } : Viewer.ParseResult).molecule = r.molecule := rfl

theorem parseSDF_bonds_resolve {content : String} {name : Option String} {now : Nat}
    {mol : Viewer.Molecule} (h : (parseSDF content name now).molecule = some mol) :
    ∀ b ∈ mol.bonds, endpointsIn mol.atoms b := by
  unfold parseSDF at h
  dsimp only at h
  split at h
  · exact absurd h (by simp)
  · rw [parseResult_update_format_molecule] at h
    exact parseMOL_bonds_resolve h

/-- The molecule produced by the XYZ water fixture. -/
def xyzWaterMol : Viewer.Molecule :=
  ⟨"xyz-0", "water",
    [⟨"O1", "O", (0, 0, 0), "#ff3366", 38/25⟩,
     ⟨"H2", "H", (24/25, 0, 0), "#ffffff", 6/5⟩,
     ⟨"H3", "H", (-6/25, 93/100, 0), "#ffffff", 6/5⟩],
    [⟨"b1", "O1", "H2", 1⟩, ⟨"b2", "O1", "H3", 1⟩]⟩

/-- C1: for every molecule returned by a successful XYZ/MOL/PDB/SDF parse,
each bond's two atom-id references resolve to atoms present in the
molecule's atom list (no dangling references survive parsing). -/
theorem parsed_bonds_resolve :
    (∀ content name now mol, (parseXYZ content name now).molecule = some mol →
      ∀ b ∈ mol.bonds, endpointsIn mol.atoms b) ∧
    (∀ content name now mol, (parseMOL content name now).molecule = some mol →
      ∀ b ∈ mol.bonds, endpointsIn mol.atoms b) ∧
    (∀ content name now mol, (parsePDB content name now).molecule = some mol →
      ∀ b ∈ mol.bonds, endpointsIn mol.atoms b) ∧
    (∀ content name now mol, (parseSDF content name now).molecule = some mol →
      ∀ b ∈ mol.bonds, endpointsIn mol.atoms b) :=
  ⟨fun _ _ _ _ h => parseXYZ_bonds_resolve h,
   fun _ _ _ _ h => parseMOL_bonds_resolve h,
   fun _ _ _ _ h => parsePDB_bonds_resolve h,
   fun _ _ _ _ h => parseSDF_bonds_resolve h⟩

/-- Witness for C1 at the XYZ water fixture. -/
theorem parsed_bonds_resolve_witness :
    (parseXYZ xyzWater none 0).molecule = some xyzWaterMol ∧
    (∀ b ∈ xyzWaterMol.bonds, endpointsIn xyzWaterMol.atoms b) := by
  have hm : (parseXYZ xyzWater none 0).molecule = some xyzWaterMol := by decide
  exact ⟨hm, parsed_bonds_resolve.1 xyzWater none 0 xyzWaterMol hm⟩

-- ═══════════════════════════════════════════════════════════════════════════
-- Chemistry utilities data model (src: types/molecule definitions)
-- ═══════════════════════════════════════════════════════════════════════════

namespace Chem

inductive BondOrder where
  | one | two | three | aromatic
deriving DecidableEq, Repr

structure Atom where
  element : String
  position : ℚ × ℚ × ℚ
  color : String
  radius : ℚ
  formalCharge : Option Int := none
  label : Option String := none
deriving DecidableEq, Repr

structure Bond where
  atomIndex1 : Int
  atomIndex2 : Int
  order : BondOrder
deriving DecidableEq, Repr

structure QuantumProperties where
  energy : ℚ
  homo : ℚ
  lumo : ℚ
  bandGap : ℚ
  dipole : ℚ
  polarizability : Option ℚ := none
deriving DecidableEq, Repr

structure Molecule where
  id : String
  name : String
  formula : String
  smiles : String
  atoms : List Atom
  bonds : List Bond
  functionalGroups : List String
  quantum : Option QuantumProperties := none
  molecularWeight : Option ℚ := none
  pubchemCid : Option Int := none
  inchi : Option String := none
  source : Option String := none
deriving DecidableEq, Repr

end Chem

/-- Modelled from the spec: the static ElementProperties table (§3,
`elements.json`) is not under src/; a representative fragment of the
symbol → atomic-mass map is embedded, faithful to the spec's "symbol →
{..., atomic mass, ...}" read-only collaborator; absent symbols model the
`elements[symbol]` miss. -/
def elementsAtomicMass (s : String) : Option ℚ :=
  if s = "H" then some (1008/1000) else if s = "C" then some (12011/1000)
  else if s = "N" then some (14007/1000) else if s = "O" then some (15999/1000)
  else if s = "S" then some (3206/100) else none

/-- `getAtomicMass`: `elements[symbol]?.atomicMass ?? 0`. -/
def getAtomicMass (symbol : String) : ℚ :=
  (elementsAtomicMass symbol).getD 0

-- ═══════════════════════════════════════════════════════════════════════════
-- FormulaCalculator (calculateMolecularFormula / subscriptNumber)
-- ═══════════════════════════════════════════════════════════════════════════

/-- One `counts[atom.element] = (counts[atom.element] || 0) + 1` step on the
insertion-ordered association list that models the JS object. -/
def bump : List (String × Nat) → String → List (String × Nat)
  | [], el => [(el, 1)]
  | p :: rest, el => if p.1 == el then (p.1, p.2 + 1) :: rest else p :: bump rest el

/-- The `counts` object after the `atoms.forEach` loop. -/
def countsList (atoms : List Chem.Atom) : List (String × Nat) :=
  atoms.foldl (fun m a => bump m a.element) []

/-- `counts[el]`, `0` when absent (the `|| 0` / falsy-test view). -/
def lookupCount : List (String × Nat) → String → Nat
  | [], _ => 0
  | p :: rest, el => if p.1 == el then p.2 else lookupCount rest el

/-- JS default string comparator (UTF-16 code unit order; for the ASCII
element symbols this is Lean's string order). -/
def strLe (a b : String) : Bool := decide (a ≤ b)

/-- Insertion into a sorted list. -/
def insertSorted (x : String) : List String → List String
  | [] => [x]
  | y :: ys => if strLe x y then x :: y :: ys else y :: insertSorted x ys

/-- JS `Array.prototype.sort()` with the default comparator: produces the
list sorted by `strLe` (unique for the distinct keys it is applied to). -/
def sortStrings (l : List String) : List String := l.foldr insertSorted []

/-- `subscriptNumber(n)`: decimal digits mapped through `"₀₁₂₃₄₅₆₇₈₉"`. -/
def subscriptNumber (n : Nat) : String :=
  String.mk ((Nat.repr n).data.map
    (fun d => ("₀₁₂₃₄₅₆₇₈₉".data.getD (d.toNat - 48) d)))

/-- `calculateMolecularFormula(atoms)`: count per element, order C, H, then
remaining keys sorted; counts of 1 omitted, larger counts in subscripts. -/
def calculateMolecularFormula (atoms : List Chem.Atom) : String :=
  let counts := countsList atoms
  let ordered := (if lookupCount counts "C" ≠ 0 then ["C"] else [])
    ++ (if lookupCount counts "H" ≠ 0 then ["H"] else [])
    ++ sortStrings ((counts.map Prod.fst).filter (fun el => el != "C" && el != "H"))
  String.join (ordered.map (fun el =>
    if lookupCount counts el = 1 then el else el ++ subscriptNumber (lookupCount counts el)))

-- spec-side rendering of the same contract --

/-- Number of atoms of element `el` (the specification's "count atoms per
element"). -/
def elementCount (atoms : List Chem.Atom) (el : String) : Nat :=
  (atoms.filter (fun a => a.element == el)).length

/-- The distinct elements in first-occurrence order. -/
def firstOccurrences (l : List String) : List String :=
  l.foldl (fun acc x => if x ∈ acc then acc else acc ++ [x]) []

/-- The molecular formula exactly as the specification words it: Carbon
first (if present), then Hydrogen (if present), then the remaining present
elements alphabetically; counts of 1 omitted, counts >1 as subscripts. -/
def specFormula (atoms : List Chem.Atom) : String :=
  let present := firstOccurrences (atoms.map (fun a => a.element))
  let ordered := (if "C" ∈ present then ["C"] else [])
    ++ (if "H" ∈ present then ["H"] else [])
    ++ sortStrings (present.filter (fun el => el != "C" && el != "H"))
  String.join (ordered.map (fun el =>
    if elementCount atoms el = 1 then el else el ++ subscriptNumber (elementCount atoms el)))

-- ═══════════════════════════════════════════════════════════════════════════
-- C6 supporting lemmas
-- ═══════════════════════════════════════════════════════════════════════════

theorem lookup_bump (m : List (String × Nat)) (e el : String) :
    lookupCount (bump m e) el = lookupCount m el + (if el = e then 1 else 0) := by
  induction m with
  | nil =>
    by_cases h : el = e
    · subst h
      simp [bump, lookupCount]
    · have hne : ¬ e = el := fun h' => h h'.symm
      simp [bump, lookupCount, beq_iff_eq, hne, h]
  | cons p rest ih =>
    by_cases hp : p.1 = e
    · by_cases h : p.1 = el
      · have he : el = e := h ▸ hp
        simp [bump, lookupCount, beq_iff_eq, hp, h, he]
      · have hne : ¬ el = e := fun he => h (he ▸ hp)
        have hne2 : ¬ e = el := fun h' => hne h'.symm
        simp [bump, lookupCount, beq_iff_eq, hp, h, hne, hne2]
    · by_cases h : p.1 = el
      · have hne : ¬ el = e := fun he => hp (he ▸ h)
        simp [bump, lookupCount, beq_iff_eq, hp, h, hne]
      · simp [bump, lookupCount, beq_iff_eq, hp, h, ih]

theorem keys_bump (m : List (String × Nat)) (e : String) :
    (bump m e).map Prod.fst =
      if e ∈ m.map Prod.fst then m.map Prod.fst else m.map Prod.fst ++ [e] := by
  induction m with
  | nil => simp [bump]
  | cons p rest ih =>
    by_cases hp : p.1 = e
    · simp [bump, beq_iff_eq, hp]
    · have hne : ¬ e = p.1 := fun h' => hp h'.symm
      by_cases hm : e ∈ rest.map Prod.fst
      · simp [bump, beq_iff_eq, hp, hm, hne, ih]
      · simp [bump, beq_iff_eq, hp, hm, hne, ih]

theorem lookup_countsList_aux (l : List Chem.Atom) (m : List (String × Nat)) (el : String) :
    lookupCount (l.foldl (fun m a => bump m a.element) m) el
      = lookupCount m el + (l.filter (fun a => a.element == el)).length := by
  induction l generalizing m with
  | nil => simp
  | cons a rest ih =>
    simp only [List.foldl_cons, List.filter_cons]
    rw [ih]
    rw [lookup_bump]
    by_cases h : el = a.element
    · have h' : (a.element == el) = true := by simp [beq_iff_eq, h.symm]
      simp only [h, h', beq_self_eq_true, if_true, List.length_cons]
      omega
    · have h' : (a.element == el) = false := by
        simp only [beq_eq_false_iff_ne]
        exact fun hh => h hh.symm
      simp [h, h']

theorem lookup_countsList (atoms : List Chem.Atom) (el : String) :
    lookupCount (countsList atoms) el = elementCount atoms el := by
  unfold countsList elementCount
  rw [lookup_countsList_aux]
  simp [lookupCount]

theorem keys_countsList_aux (l : List Chem.Atom) (m : List (String × Nat)) :
    (l.foldl (fun m a => bump m a.element) m).map Prod.fst
      = (l.map (fun a => a.element)).foldl
          (fun acc x => if x ∈ acc then acc else acc ++ [x]) (m.map Prod.fst) := by
  induction l generalizing m with
  | nil => simp
  | cons a rest ih =>
    simp only [List.foldl_cons, List.map_cons]
    rw [ih, keys_bump]

theorem keys_countsList (atoms : List Chem.Atom) :
    (countsList atoms).map Prod.fst = firstOccurrences (atoms.map (fun a => a.element)) := by
  unfold countsList firstOccurrences
  rw [keys_countsList_aux]
  simp

theorem mem_addNew_foldl (l : List String) (acc : List String) (x : String) :
    (x ∈ l.foldl (fun acc y => if y ∈ acc then acc else acc ++ [y]) acc)
      ↔ (x ∈ acc ∨ x ∈ l) := by
  induction l generalizing acc with
  | nil => simp
  | cons y rest ih =>
    simp only [List.foldl_cons]
    by_cases hy : y ∈ acc
    · rw [if_pos hy, ih]
      simp only [List.mem_cons]
      constructor
      · tauto
      · rintro (h | h | h)
        · exact Or.inl h
        · exact Or.inl (h ▸ hy)
        · exact Or.inr h
    · rw [if_neg hy, ih]
      simp only [List.mem_append, List.mem_cons, List.not_mem_nil, or_false]
      tauto

theorem mem_firstOccurrences (l : List String) (x : String) :
    x ∈ firstOccurrences l ↔ x ∈ l := by
  unfold firstOccurrences
  rw [mem_addNew_foldl]
  simp

theorem elementCount_ne_zero_iff (atoms : List Chem.Atom) (el : String) :
    elementCount atoms el ≠ 0 ↔ el ∈ atoms.map (fun a => a.element) := by
  unfold elementCount
  rw [Ne, List.length_eq_zero, List.filter_eq_nil_iff]
  simp only [beq_iff_eq, List.mem_map]
  constructor
  · intro h
    by_contra hc
    exact h (fun a ha hel => hc ⟨a, ha, hel⟩)
  · rintro ⟨a, ha, rfl⟩ h
    exact h a ha rfl

/-- C6: the molecular formula is rendered with Carbon first (if present),
then Hydrogen (if present), then the remaining elements alphabetically;
count 1 is omitted and larger counts are rendered as Unicode subscript
digits; on {O, H, H} the result is exactly "H₂O". -/
theorem molecularFormula_rule :
    (∀ atoms : List Chem.Atom, calculateMolecularFormula atoms = specFormula atoms) ∧
    calculateMolecularFormula
      [⟨"O", (0, 0, 0), "#ff3366", 152/100, none, none⟩,
       ⟨"H", (96/100, 0, 0), "#ffffff", 12/10, none, none⟩,
       ⟨"H", (-24/100, 93/100, 0), "#ffffff", 12/10, none, none⟩] = "H₂O" ∧
    subscriptNumber 2 = "₂" ∧ subscriptNumber 103 = "₁₀₃" := by
  refine ⟨?_, by decide, by decide, by decide⟩
  intro atoms
  unfold calculateMolecularFormula specFormula
  dsimp only
  simp only [lookup_countsList, keys_countsList]
  have hC : (elementCount atoms "C" ≠ 0)
      ↔ "C" ∈ firstOccurrences (atoms.map (fun a => a.element)) := by
    rw [elementCount_ne_zero_iff, mem_firstOccurrences]
  have hH : (elementCount atoms "H" ≠ 0)
      ↔ "H" ∈ firstOccurrences (atoms.map (fun a => a.element)) := by
    rw [elementCount_ne_zero_iff, mem_firstOccurrences]
  simp only [hC, hH]

-- ═══════════════════════════════════════════════════════════════════════════
-- GeometryKernel: center of mass; MOLECULE TRANSFORMATIONS (C9)
-- ═══════════════════════════════════════════════════════════════════════════

/-- `calculateCenterOfMass(atoms)`: mass-weighted average; origin when the
total mass is zero.  The `forEach` accumulators `(totalMass, cx, cy, cz)`
are one fold state. -/
def calculateCenterOfMass (atoms : List Chem.Atom) : ℚ × ℚ × ℚ :=
  let st := atoms.foldl
    (fun (st : ℚ × ℚ × ℚ × ℚ) a =>
      let mass := getAtomicMass a.element
      (st.1 + mass,
       st.2.1 + a.position.1 * mass,
       st.2.2.1 + a.position.2.1 * mass,
       st.2.2.2 + a.position.2.2 * mass))
    (0, 0, 0, 0)
  if st.1 = 0 then (0, 0, 0)
  else (st.2.1 / st.1, st.2.2.1 / st.1, st.2.2.2 / st.1)

/-- `centerMolecule(molecule)`: spread-copy with translated atom copies. -/
def centerMolecule (molecule : Chem.Molecule) : Chem.Molecule :=
  let center := calculateCenterOfMass molecule.atoms
  let centeredAtoms := molecule.atoms.map (fun a =>
    { a with position := (a.position.1 - center.1,
                          a.position.2.1 - center.2.1,
                          a.position.2.2 - center.2.2) })
  { molecule with atoms := centeredAtoms }

/-- `scaleMolecule(molecule, factor)`. -/
def scaleMolecule (molecule : Chem.Molecule) (factor : ℚ) : Chem.Molecule :=
  let scaledAtoms := molecule.atoms.map (fun a =>
    { a with position := (a.position.1 * factor,
                          a.position.2.1 * factor,
                          a.position.2.2 * factor) })
  { molecule with atoms := scaledAtoms }

/-- Per-atom field preservation between two same-length atom lists, with a
prescribed position transform. -/
def atomsTransformedBy (old new : List Chem.Atom) (f : Chem.Atom → ℚ × ℚ × ℚ) : Prop :=
  new.length = old.length ∧
  ∀ i : Nat,
    (new.get? i).map Chem.Atom.element = (old.get? i).map Chem.Atom.element ∧
    (new.get? i).map Chem.Atom.color = (old.get? i).map Chem.Atom.color ∧
    (new.get? i).map Chem.Atom.radius = (old.get? i).map Chem.Atom.radius ∧
    (new.get? i).map Chem.Atom.formalCharge = (old.get? i).map Chem.Atom.formalCharge ∧
    (new.get? i).map Chem.Atom.label = (old.get? i).map Chem.Atom.label ∧
    (new.get? i).map Chem.Atom.position = (old.get? i).map f

/-- All molecule fields other than `atoms` agree. -/
def sameMoleculeShell (a b : Chem.Molecule) : Prop :=
  a.id = b.id ∧ a.name = b.name ∧ a.formula = b.formula ∧ a.smiles = b.smiles ∧
  a.bonds = b.bonds ∧ a.functionalGroups = b.functionalGroups ∧
  a.quantum = b.quantum ∧ a.molecularWeight = b.molecularWeight ∧
  a.pubchemCid = b.pubchemCid ∧ a.inchi = b.inchi ∧ a.source = b.source

/-- C9: `centerMolecule` and `scaleMolecule` build a fresh Molecule value
(the embedding is pure, so the argument itself is untouched); the returned
molecule keeps the input's id, name, bonds (and every other non-atom
field), each atom keeps its element, color, radius, formal charge and
label, and only positions change - translated by minus the center of mass,
resp. scaled by the factor. -/
theorem centerScale_fresh_value :
    (∀ m : Chem.Molecule,
      sameMoleculeShell (centerMolecule m) m ∧
      atomsTransformedBy m.atoms (centerMolecule m).atoms (fun a =>
        (a.position.1 - (calculateCenterOfMass m.atoms).1,
         a.position.2.1 - (calculateCenterOfMass m.atoms).2.1,
         a.position.2.2 - (calculateCenterOfMass m.atoms).2.2))) ∧
    (∀ (m : Chem.Molecule) (factor : ℚ),
      sameMoleculeShell (scaleMolecule m factor) m ∧
      atomsTransformedBy m.atoms (scaleMolecule m factor).atoms (fun a =>
        (a.position.1 * factor, a.position.2.1 * factor, a.position.2.2 * factor))) := by
  constructor
  · intro m
    refine ⟨⟨rfl, rfl, rfl, rfl, rfl, rfl, rfl, rfl, rfl, rfl, rfl⟩, ?_, ?_⟩
    · simp [centerMolecule]
    · intro i
      simp only [centerMolecule, List.get?_eq_getElem?, List.getElem?_map]
      rcases m.atoms[i]? with _ | a <;> simp
  · intro m factor
    refine ⟨⟨rfl, rfl, rfl, rfl, rfl, rfl, rfl, rfl, rfl, rfl, rfl⟩, ?_, ?_⟩
    · simp [scaleMolecule]
    · intro i
      simp only [scaleMolecule, List.get?_eq_getElem?, List.getElem?_map]
      rcases m.atoms[i]? with _ | a <;> simp

-- ═══════════════════════════════════════════════════════════════════════════
-- GeometryKernel (distance3D / boundingBox / bondLength / angle / dihedral)
-- ═══════════════════════════════════════════════════════════════════════════

/-- Extended rationals with ±Infinity: the JS number line as needed by the
bounding-box fold (`Infinity` = ⊤, `-Infinity` = ⊥). -/
abbrev EQ := WithBot (WithTop ℚ)

def toEQ (q : ℚ) : EQ := ((q : WithTop ℚ) : WithBot (WithTop ℚ))

def EQ.isFin : EQ → Bool
  | some (some _) => true
  | _ => false

/-- `Math.min` accumulation from `Infinity` (per axis). -/
def jsMinFold (vals : List ℚ) : EQ :=
  vals.foldl (fun e x => min e (toEQ x)) ⊤

/-- `Math.max` accumulation from `-Infinity` (per axis). -/
def jsMaxFold (vals : List ℚ) : EQ :=
  vals.foldl (fun e x => max e (toEQ x)) ⊥

/-- `max - min` per axis.  Mixed infinite operands (possible only before the
non-empty guard, never where the source evaluates this; see
`boundingBox_nonempty_finite`) are mapped to ⊤ by convention, where JS would
produce NaN/±Infinity. -/
def eSub (a b : EQ) : EQ :=
  match a, b with
  | some (some x), some (some y) => toEQ (x - y)
  | _, _ => ⊤

/-- `midpoint3D(min, max)` per axis, `(a + b) / 2`; same convention for the
unreachable infinite operands. -/
def eMid (a b : EQ) : EQ :=
  match a, b with
  | some (some x), some (some y) => toEQ ((x + y) / 2)
  | _, _ => ⊤

structure Box where
  min : EQ × EQ × EQ
  max : EQ × EQ × EQ
  size : EQ × EQ × EQ
  center : EQ × EQ × EQ
deriving DecidableEq

/-- All twelve box components are finite. -/
def Box.allFin (b : Box) : Bool :=
  b.min.1.isFin && b.min.2.1.isFin && b.min.2.2.isFin &&
  b.max.1.isFin && b.max.2.1.isFin && b.max.2.2.isFin &&
  b.size.1.isFin && b.size.2.1.isFin && b.size.2.2.isFin &&
  b.center.1.isFin && b.center.2.1.isFin && b.center.2.2.isFin

/-- `calculateBoundingBox(atoms)`: zero box on the empty list, else per-axis
min/max folds from ±Infinity (the single `forEach` with three independent
per-axis accumulators is modelled as per-axis folds). -/
def calculateBoundingBox (atoms : List Chem.Atom) : Box :=
  if atoms = [] then
    ⟨(toEQ 0, toEQ 0, toEQ 0), (toEQ 0, toEQ 0, toEQ 0),
     (toEQ 0, toEQ 0, toEQ 0), (toEQ 0, toEQ 0, toEQ 0)⟩
  else
    let xs := atoms.map (fun a => a.position.1)
    let ys := atoms.map (fun a => a.position.2.1)
    let zs := atoms.map (fun a => a.position.2.2)
    let mn := (jsMinFold xs, jsMinFold ys, jsMinFold zs)
    let mx := (jsMaxFold xs, jsMaxFold ys, jsMaxFold zs)
    ⟨mn, mx,
     (eSub mx.1 mn.1, eSub mx.2.1 mn.2.1, eSub mx.2.2 mn.2.2),
     (eMid mn.1 mx.1, eMid mn.2.1 mx.2.1, eMid mn.2.2 mx.2.2)⟩

/-- Atom positions as real points (geometry runs on JS numbers, modelled
exactly as reals). -/
def toR3 (p : ℚ × ℚ × ℚ) : ℝ × ℝ × ℝ := ((p.1 : ℝ), (p.2.1 : ℝ), (p.2.2 : ℝ))

/-- `distance3D(p1, p2)`. -/
noncomputable def distance3D (p1 p2 : ℝ × ℝ × ℝ) : ℝ :=
  Real.sqrt ((p2.1 - p1.1) ^ 2 + (p2.2.1 - p1.2.1) ^ 2 + (p2.2.2 - p1.2.2) ^ 2)

/-- `calculateBondLength(atoms, bond)`: `0` when either endpoint index does
not resolve (`if (!atom1 || !atom2) return 0`). -/
noncomputable def calculateBondLength (atoms : List Chem.Atom) (bond : Chem.Bond) : ℝ :=
  match jsIndex atoms bond.atomIndex1, jsIndex atoms bond.atomIndex2 with
  | some a1, some a2 => distance3D (toR3 a1.position) (toR3 a2.position)
  | _, _ => 0

/-- `calculateAngle(p1, p2, p3)` in degrees, cosine clamped to [-1, 1]. -/
noncomputable def calculateAngle (p1 p2 p3 : ℝ × ℝ × ℝ) : ℝ :=
  let v1 := (p1.1 - p2.1, p1.2.1 - p2.2.1, p1.2.2 - p2.2.2)
  let v2 := (p3.1 - p2.1, p3.2.1 - p2.2.1, p3.2.2 - p2.2.2)
  let dotp := v1.1 * v2.1 + v1.2.1 * v2.2.1 + v1.2.2 * v2.2.2
  let mag1 := Real.sqrt (v1.1 ^ 2 + v1.2.1 ^ 2 + v1.2.2 ^ 2)
  let mag2 := Real.sqrt (v2.1 ^ 2 + v2.2.1 ^ 2 + v2.2.2 ^ 2)
  if mag1 = 0 ∨ mag2 = 0 then 0
  else
    let cosAngle := max (-1) (min 1 (dotp / (mag1 * mag2)))
    Real.arccos cosAngle * 180 / Real.pi

-- JS doubles with NaN/±Infinity, for the dihedral pipeline --

/-- A JS double as the dihedral computation needs it: a real, an infinity,
or NaN. -/
inductive JsReal where
  | fin (x : ℝ)
  | inf
  | ninf
  | nan

noncomputable def JsReal.add : JsReal → JsReal → JsReal
  | .nan, _ => .nan
  | _, .nan => .nan
  | .fin a, .fin b => .fin (a + b)
  | .inf, .ninf => .nan
  | .ninf, .inf => .nan
  | .inf, _ => .inf
  | _, .inf => .inf
  | .ninf, _ => .ninf
  | _, .ninf => .ninf

def JsReal.neg : JsReal → JsReal
  | .fin a => .fin (-a)
  | .inf => .ninf
  | .ninf => .inf
  | .nan => .nan

/-- JS subtraction `a - b` (`= a + (-b)` with IEEE semantics). -/
noncomputable def JsReal.sub (a b : JsReal) : JsReal := a.add b.neg

noncomputable def JsReal.mul : JsReal → JsReal → JsReal
  | .nan, _ => .nan
  | _, .nan => .nan
  | .fin a, .fin b => .fin (a * b)
  | .inf, .fin b => if b = 0 then .nan else if 0 < b then .inf else .ninf
  | .fin a, .inf => if a = 0 then .nan else if 0 < a then .inf else .ninf
  | .ninf, .fin b => if b = 0 then .nan else if 0 < b then .ninf else .inf
  | .fin a, .ninf => if a = 0 then .nan else if 0 < a then .ninf else .inf
  | .inf, .inf => .inf
  | .ninf, .ninf => .inf
  | .inf, .ninf => .ninf
  | .ninf, .inf => .ninf

/-- JS division `x / y` of two reals: NaN on `0/0`, signed infinity on
`x/0`. -/
noncomputable def jsDiv (x y : ℝ) : JsReal :=
  if y = 0 then (if x = 0 then .nan else if 0 < x then .inf else .ninf)
  else .fin (x / y)

/-- Division by a (positive) real, for the final `/ Math.PI`. -/
noncomputable def JsReal.divPos : JsReal → ℝ → JsReal
  | .fin v, r => .fin (v / r)
  | .inf, _ => .inf
  | .ninf, _ => .ninf
  | .nan, _ => .nan

/-- `Math.atan2(y, x)` (range (-π, π]), lifted to JS doubles. -/
noncomputable def jatan2 : JsReal → JsReal → JsReal
  | .nan, _ => .nan
  | _, .nan => .nan
  | .fin y, .fin x => .fin (Complex.arg ⟨x, y⟩)
  | .inf, .fin _ => .fin (Real.pi / 2)
  | .ninf, .fin _ => .fin (-(Real.pi / 2))
  | .fin _, .inf => .fin 0
  | .fin y, .ninf => .fin (if y < 0 then -Real.pi else Real.pi)
  | .inf, .inf => .fin (Real.pi / 4)
  | .inf, .ninf => .fin (3 * Real.pi / 4)
  | .ninf, .inf => .fin (-(Real.pi / 4))
  | .ninf, .ninf => .fin (-(3 * Real.pi / 4))

/-- Cross product over reals (the source's `cross` helper). -/
def crossR (a b : ℝ × ℝ × ℝ) : ℝ × ℝ × ℝ :=
  (a.2.1 * b.2.2 - a.2.2 * b.2.1,
   a.2.2 * b.1 - a.1 * b.2.2,
   a.1 * b.2.1 - a.2.1 * b.1)

/-- Dot product over reals (the source's `dot` helper). -/
def dotR (a b : ℝ × ℝ × ℝ) : ℝ := a.1 * b.1 + a.2.1 * b.2.1 + a.2.2 * b.2.2

def liftR3 (a : ℝ × ℝ × ℝ) : JsReal × JsReal × JsReal :=
  (.fin a.1, .fin a.2.1, .fin a.2.2)

/-- `cross` where one operand came through the NaN-capable division. -/
noncomputable def jcross (a b : JsReal × JsReal × JsReal) : JsReal × JsReal × JsReal :=
  ((a.2.1.mul b.2.2).sub (a.2.2.mul b.2.1),
   (a.2.2.mul b.1).sub (a.1.mul b.2.2),
   (a.1.mul b.2.1).sub (a.2.1.mul b.1))

/-- `dot` on JS doubles (left-associated sum, as JS evaluates it). -/
noncomputable def jdot (a b : JsReal × JsReal × JsReal) : JsReal :=
  ((a.1.mul b.1).add (a.2.1.mul b.2.1)).add (a.2.2.mul b.2.2)

/-- `calculateDihedral(p1, p2, p3, p4)` in degrees.  `b2Norm = b2.map(v =>
v / b2Mag)` divides by a possibly-zero magnitude, so from there on values
are JS doubles that may be NaN; the result is
`(Math.atan2(y, x) * 180) / Math.PI`. -/
noncomputable def calculateDihedral (p1 p2 p3 p4 : ℝ × ℝ × ℝ) : JsReal :=
  let b1 := (p2.1 - p1.1, p2.2.1 - p1.2.1, p2.2.2 - p1.2.2)
  let b2 := (p3.1 - p2.1, p3.2.1 - p2.2.1, p3.2.2 - p2.2.2)
  let b3 := (p4.1 - p3.1, p4.2.1 - p3.2.1, p4.2.2 - p3.2.2)
  let n1 := crossR b1 b2
  let n2 := crossR b2 b3
  let b2Mag := Real.sqrt (b2.1 ^ 2 + b2.2.1 ^ 2 + b2.2.2 ^ 2)
  let b2Norm := (jsDiv b2.1 b2Mag, jsDiv b2.2.1 b2Mag, jsDiv b2.2.2 b2Mag)
  let m1 := jcross (liftR3 n1) b2Norm
  let x := dotR n1 n2
  let y := jdot m1 (liftR3 n2)
  ((jatan2 y (.fin x)).mul (.fin 180)).divPos Real.pi

-- ═══════════════════════════════════════════════════════════════════════════
-- C7 supporting lemmas
-- ═══════════════════════════════════════════════════════════════════════════

theorem toEQ_le (a b : ℚ) : toEQ a ≤ toEQ b ↔ a ≤ b := by
  unfold toEQ
  rw [WithBot.coe_le_coe, WithTop.coe_le_coe]

theorem toEQ_min (a b : ℚ) : min (toEQ a) (toEQ b) = toEQ (min a b) := by
  rcases le_total a b with h | h
  · rw [min_eq_left ((toEQ_le a b).mpr h), min_eq_left h]
  · rw [min_eq_right ((toEQ_le b a).mpr h), min_eq_right h]

theorem toEQ_max (a b : ℚ) : max (toEQ a) (toEQ b) = toEQ (max a b) := by
  rcases le_total a b with h | h
  · rw [max_eq_right ((toEQ_le a b).mpr h), max_eq_right h]
  · rw [max_eq_left ((toEQ_le b a).mpr h), max_eq_left h]

theorem jsMinFold_from_fin (vals : List ℚ) (q : ℚ) :
    (vals.foldl (fun e x => min e (toEQ x)) (toEQ q)).isFin = true := by
  induction vals generalizing q with
  | nil => rfl
  | cons v vs ih =>
    simp only [List.foldl_cons, toEQ_min]
    exact ih (min q v)

theorem jsMinFold_fin (vals : List ℚ) (h : vals ≠ []) : (jsMinFold vals).isFin = true := by
  rcases vals with _ | ⟨v, vs⟩
  · exact absurd rfl h
  · unfold jsMinFold
    simp only [List.foldl_cons]
    rw [min_eq_right (le_top : toEQ v ≤ ⊤)]
    exact jsMinFold_from_fin vs v

theorem jsMaxFold_from_fin (vals : List ℚ) (q : ℚ) :
    (vals.foldl (fun e x => max e (toEQ x)) (toEQ q)).isFin = true := by
  induction vals generalizing q with
  | nil => rfl
  | cons v vs ih =>
    simp only [List.foldl_cons, toEQ_max]
    exact ih (max q v)

theorem jsMaxFold_fin (vals : List ℚ) (h : vals ≠ []) : (jsMaxFold vals).isFin = true := by
  rcases vals with _ | ⟨v, vs⟩
  · exact absurd rfl h
  · unfold jsMaxFold
    simp only [List.foldl_cons]
    rw [max_eq_right (bot_le : ⊥ ≤ toEQ v)]
    exact jsMaxFold_from_fin vs v

theorem isFin_exists {e : EQ} (h : e.isFin = true) : ∃ q : ℚ, e = toEQ q := by
  rcases e with _ | e
  · exact absurd h (by simp [EQ.isFin])
  · rcases e with _ | q
    · exact absurd h (by simp [EQ.isFin])
    · exact ⟨q, rfl⟩

theorem eSub_fin {a b : EQ} (ha : a.isFin = true) (hb : b.isFin = true) :
    (eSub a b).isFin = true := by
  rcases isFin_exists ha with ⟨x, rfl⟩
  rcases isFin_exists hb with ⟨y, rfl⟩
  rfl

theorem eMid_fin {a b : EQ} (ha : a.isFin = true) (hb : b.isFin = true) :
    (eMid a b).isFin = true := by
  rcases isFin_exists ha with ⟨x, rfl⟩
  rcases isFin_exists hb with ⟨y, rfl⟩
  rfl

theorem comFold_totalMass (l : List Chem.Atom) (st : ℚ × ℚ × ℚ × ℚ) :
    (l.foldl
      (fun (st : ℚ × ℚ × ℚ × ℚ) a =>
        let mass := getAtomicMass a.element
        (st.1 + mass,
         st.2.1 + a.position.1 * mass,
         st.2.2.1 + a.position.2.1 * mass,
         st.2.2.2 + a.position.2.2 * mass)) st).1
      = st.1 + (l.map (fun a => getAtomicMass a.element)).sum := by
  induction l generalizing st with
  | nil => simp
  | cons a rest ih =>
    simp only [List.foldl_cons, List.map_cons, List.sum_cons]
    rw [ih]
    ring

-- ═══════════════════════════════════════════════════════════════════════════
-- C7: geometry degenerate-input behaviour
-- ═══════════════════════════════════════════════════════════════════════════

/-- C7 counterexample: `calculateDihedral` on coincident `p2 = p3` does NOT
yield a well-defined numeric result — `b2Norm` divides `0 / 0`, the NaN
propagates through `m1`, `y` and `atan2`, and the function returns NaN. -/
theorem dihedral_nan_counterexample :
    calculateDihedral (1, 0, 0) (0, 0, 0) (0, 0, 0) (0, 1, 0) = JsReal.nan ∧
    ∀ q : ℝ, calculateDihedral (1, 0, 0) (0, 0, 0) (0, 0, 0) (0, 1, 0) ≠ JsReal.fin q := by
  have h : calculateDihedral (1, 0, 0) (0, 0, 0) (0, 0, 0) (0, 1, 0) = JsReal.nan := by
    unfold calculateDihedral jsDiv jcross jdot liftR3 crossR dotR
    norm_num [Real.sqrt_zero, JsReal.mul, JsReal.sub, JsReal.add, JsReal.neg, jatan2,
      JsReal.divPos]
  refine ⟨h, fun q hq => ?_⟩
  rw [h] at hq
  exact JsReal.noConfusion hq

/-- C7 (amended): each geometry function returns its documented fallback on
degenerate input — `angle` is 0 when either vector has zero magnitude,
`centerOfMass` is the origin when total mass is zero, `boundingBox` is the
all-zero box on an empty list and all its components are finite (no
Infinity) on a non-empty one, `bondLength` is 0 on unresolvable endpoint
indices — but `dihedral` with coincident `p2 = p3` returns NaN (0/0 in
`b2Norm`), not a well-defined number. -/
theorem geometry_degenerate_fallbacks :
    (∀ p1 p2 p3 : ℝ × ℝ × ℝ, p1 = p2 ∨ p3 = p2 → calculateAngle p1 p2 p3 = 0) ∧
    (∀ atoms : List Chem.Atom,
      (atoms.map (fun a => getAtomicMass a.element)).sum = 0 →
      calculateCenterOfMass atoms = (0, 0, 0)) ∧
    (calculateBoundingBox [] =
      ⟨(toEQ 0, toEQ 0, toEQ 0), (toEQ 0, toEQ 0, toEQ 0),
       (toEQ 0, toEQ 0, toEQ 0), (toEQ 0, toEQ 0, toEQ 0)⟩) ∧
    (∀ atoms : List Chem.Atom, atoms ≠ [] →
      (calculateBoundingBox atoms).allFin = true) ∧
    (∀ (atoms : List Chem.Atom) (bond : Chem.Bond),
      jsIndex atoms bond.atomIndex1 = none ∨ jsIndex atoms bond.atomIndex2 = none →
      calculateBondLength atoms bond = 0) ∧
    (∀ p1 p p4 : ℝ × ℝ × ℝ, calculateDihedral p1 p p p4 = JsReal.nan) := by
  refine ⟨?_, ?_, by rfl, ?_, ?_, ?_⟩
  · intro p1 p2 p3 h
    unfold calculateAngle
    rcases h with rfl | rfl
    · simp [sub_self, Real.sqrt_zero]
    · simp [sub_self, Real.sqrt_zero]
  · intro atoms h
    unfold calculateCenterOfMass
    rw [if_pos]
    rw [comFold_totalMass, zero_add]
    exact h
  · intro atoms h
    unfold calculateBoundingBox
    rw [if_neg h]
    have hne : atoms.map (fun a => a.position.1) ≠ [] := by
      simpa using h
    have hne2 : atoms.map (fun a => a.position.2.1) ≠ [] := by
      simpa using h
    have hne3 : atoms.map (fun a => a.position.2.2) ≠ [] := by
      simpa using h
    unfold Box.allFin
    simp only [jsMinFold_fin _ hne, jsMinFold_fin _ hne2, jsMinFold_fin _ hne3,
      jsMaxFold_fin _ hne, jsMaxFold_fin _ hne2, jsMaxFold_fin _ hne3,
      eSub_fin (jsMaxFold_fin _ hne) (jsMinFold_fin _ hne),
      eSub_fin (jsMaxFold_fin _ hne2) (jsMinFold_fin _ hne2),
      eSub_fin (jsMaxFold_fin _ hne3) (jsMinFold_fin _ hne3),
      eMid_fin (jsMinFold_fin _ hne) (jsMaxFold_fin _ hne),
      eMid_fin (jsMinFold_fin _ hne2) (jsMaxFold_fin _ hne2),
      eMid_fin (jsMinFold_fin _ hne3) (jsMaxFold_fin _ hne3), Bool.and_self]
  · intro atoms bond h
    unfold calculateBondLength
    rcases h with h | h
    · rw [h]
    · rcases h1 : jsIndex atoms bond.atomIndex1 with _ | a1
      · rfl
      · rw [h]
  · intro p1 p p4
    unfold calculateDihedral jsDiv jcross jdot liftR3 crossR dotR
    norm_num [sub_self, Real.sqrt_zero, JsReal.mul, JsReal.sub, JsReal.add, JsReal.neg,
      jatan2, JsReal.divPos]

/-- Witness for C7's amended statement at concrete degenerate inputs. -/
theorem geometry_degenerate_fallbacks_witness :
    calculateAngle (0, 0, 0) (0, 0, 0) (1, 0, 0) = 0 ∧
    calculateCenterOfMass [⟨"Xx", (3, 4, 5), "#808080", 1, none, none⟩] = (0, 0, 0) ∧
    (calculateBoundingBox [⟨"H", (1, 2, 3), "#ffffff", 1, none, none⟩]).allFin = true ∧
    calculateBondLength [] ⟨0, 1, Chem.BondOrder.one⟩ = 0 ∧
    calculateDihedral (1, 0, 0) (2, 2, 2) (2, 2, 2) (0, 1, 0) = JsReal.nan := by
  refine ⟨geometry_degenerate_fallbacks.1 (0, 0, 0) (0, 0, 0) (1, 0, 0) (Or.inl rfl),
    geometry_degenerate_fallbacks.2.1 _ (by decide),
    geometry_degenerate_fallbacks.2.2.2.1 _ (by simp),
    geometry_degenerate_fallbacks.2.2.2.2.1 [] ⟨0, 1, Chem.BondOrder.one⟩
      (Or.inl (by decide)),
    geometry_degenerate_fallbacks.2.2.2.2.2 (1, 0, 0) (2, 2, 2) (0, 1, 0)⟩

-- ═══════════════════════════════════════════════════════════════════════════
-- Characterization of the CONECT TypeError
-- ═══════════════════════════════════════════════════════════════════════════

/-- One CONECT target position throws: the range guard (all four
comparisons, false on NaN) does not skip it, yet one of the two indices is
NaN — then `atoms[NaN].id` dereferences `undefined`. -/
def conectStepThrows (atoms : List Viewer.Atom) (src tgt : Option Int) : Bool :=
  !(jsLtB src 0 || jsGeB src atoms.length || jsLtB tgt 0 || jsGeB tgt atoms.length)
    && (src.isNone || tgt.isNone)

/-- A CONECT line contains a throwing target position. -/
def conectLineThrows (atoms : List Viewer.Atom) (l : String) : Bool :=
  (((jsTokens (jsTrim (jsSubstringFrom l 6))).map jsParseInt).drop 1).any (fun t =>
    conectStepThrows atoms
      (((((jsTokens (jsTrim (jsSubstringFrom l 6))).map jsParseInt)).getD 0 none).map
        (fun v => v - 1))
      (t.map (fun v => v - 1)))

/-- Some CONECT record of the content throws against the parsed atoms. -/
def pdbThrows (content : String) (atoms : List Viewer.Atom) : Bool :=
  ((jsSplit content "\n").filter (fun l => jsStartsWith l "CONECT")).any
    (conectLineThrows atoms)

theorem digitChar_ne_N (n : Nat) : Nat.digitChar n ≠ 'N' := by
  rcases Nat.lt_or_ge n 16 with h | h
  · interval_cases n <;> decide
  · have h16 : Nat.digitChar n = '*' := by
      unfold Nat.digitChar
      iterate 16 rw [if_neg (by omega)]
    rw [h16]
    decide

theorem toDigitsCore_ne_N (b : Nat) (fuel : Nat) :
    ∀ (n : Nat) (ds : List Char), (∀ c ∈ ds, c ≠ 'N') →
      ∀ c ∈ Nat.toDigitsCore b fuel n ds, c ≠ 'N' := by
  induction fuel with
  | zero =>
    intro n ds hds c hc
    exact hds c hc
  | succ fuel ih =>
    intro n ds hds c hc
    unfold Nat.toDigitsCore at hc
    dsimp only at hc
    have hcons : ∀ c' ∈ Nat.digitChar (n % b) :: ds, c' ≠ 'N' := by
      intro c' hc'
      rcases List.mem_cons.mp hc' with rfl | hc'
      · exact digitChar_ne_N (n % b)
      · exact hds c' hc'
    split at hc
    · exact hcons c hc
    · exact ih (n / b) _ hcons c hc

theorem natRepr_ne_N (m : Nat) : ∀ c ∈ (Nat.repr m).data, c ≠ 'N' := by
  intro c hc
  exact toDigitsCore_ne_N 10 (m + 1) m [] (by intro c' hc'; cases hc') c hc

theorem intToString_ne_N (i : Int) : ∀ c ∈ (toString i).data, c ≠ 'N' := by
  cases i with
  | ofNat m => exact natRepr_ne_N m
  | negSucc m =>
    intro c hc
    rcases List.mem_cons.mp hc with rfl | hc
    · decide
    · exact natRepr_ne_N m.succ c hc

/-- A dedup key built from two resolved indices is never the NaN key. -/
theorem intKey_ne_nan (a b : Int) :
    toString a ++ "-" ++ toString b ≠ ("NaN-NaN" : String) := by
  intro h
  have hdata : (toString a).data ++ '-' :: (toString b).data = "NaN-NaN".data := by
    have := congrArg String.data h
    simpa [String.data_append] using this
  have hmem : 'N' ∈ (toString a).data ++ '-' :: (toString b).data := by
    rw [hdata]
    decide
  rcases List.mem_append.mp hmem with hm | hm
  · exact intToString_ne_N a 'N' hm rfl
  · rcases List.mem_cons.mp hm with hm | hm
    · cases hm
    · exact intToString_ne_N b 'N' hm rfl

/-- A source/target index that the range guard lets through resolves. -/
theorem guard_resolves {atoms : List Viewer.Atom} {s : Int}
    (h1 : jsLtB (some s) 0 = false) (h2 : jsGeB (some s) atoms.length = false) :
    ∃ a, jsIndex atoms s = some a := by
  simp only [jsLtB, decide_eq_false_iff_not] at h1
  simp only [jsGeB, decide_eq_false_iff_not] at h2
  have hlt : s.toNat < atoms.length := by omega
  refine ⟨atoms.get ⟨s.toNat, hlt⟩, ?_⟩
  unfold jsIndex
  rw [if_neg h1]
  exact List.get?_eq_get hlt

theorem conectTargets_error_iff (atoms : List Viewer.Atom) (src : Option Int)
    (ts : List (Option Int)) :
    ∀ (bonds : List Viewer.Bond) (seen : List String), ("NaN-NaN" : String) ∉ seen →
      ((∃ e, conectTargets atoms src ts (bonds, seen) = .error e)
        ↔ ∃ t ∈ ts, conectStepThrows atoms src (t.map (fun v => v - 1)) = true) := by
  induction ts with
  | nil =>
    intro bonds seen hseen
    simp [conectTargets]
  | cons t ts ih =>
    intro bonds seen hseen
    unfold conectTargets
    dsimp only
    by_cases hg : (jsLtB src 0 || jsGeB src atoms.length
        || jsLtB (t.map (fun v => v - 1)) 0
        || jsGeB (t.map (fun v => v - 1)) atoms.length) = true
    · rw [if_pos hg]
      have ht : conectStepThrows atoms src (t.map (fun v => v - 1)) = false := by
        unfold conectStepThrows
        rw [hg]
        rfl
      rw [ih bonds seen hseen]
      simp [ht]
    · have hgf : (jsLtB src 0 || jsGeB src atoms.length
          || jsLtB (t.map (fun v => v - 1)) 0
          || jsGeB (t.map (fun v => v - 1)) atoms.length) = false :=
        Bool.eq_false_iff.mpr hg
      rw [if_neg hg]
      simp only [Bool.or_eq_false_iff] at hgf
      obtain ⟨⟨⟨hs0, hslen⟩, ht0⟩, htlen⟩ := hgf
      rcases hsrc : src with _ | s
      · -- source serial is NaN yet passed the guard: the step throws
        subst hsrc
        have hkey : nanKey (jsMinO none (Option.map (fun v => v - 1) t)) ++ "-"
            ++ nanKey (jsMaxO none (Option.map (fun v => v - 1) t)) = ("NaN-NaN" : String) := rfl
        rw [hkey, if_neg (show ("NaN-NaN" : String) ∉ seen from hseen)]
        have hthrow : conectStepThrows atoms none (t.map (fun v => v - 1)) = true := by
          unfold conectStepThrows
          rw [ht0, htlen]
          rfl
        exact ⟨fun _ => ⟨t, List.mem_cons_self _ _, hthrow⟩, fun _ => ⟨(), rfl⟩⟩
      · subst hsrc
        rcases htv : t with _ | tv
        · -- target serial is NaN yet passed the guard: the step throws
          subst htv
          have hkey : nanKey (jsMinO (some s) (Option.map (fun v => v - 1) (none : Option Int)))
              ++ "-"
              ++ nanKey (jsMaxO (some s) (Option.map (fun v => v - 1) (none : Option Int)))
              = ("NaN-NaN" : String) := rfl
          rw [hkey, if_neg (show ("NaN-NaN" : String) ∉ seen from hseen)]
          have hthrow : conectStepThrows atoms (some s)
              (Option.map (fun v => v - 1) (none : Option Int)) = true := by
            unfold conectStepThrows
            rw [hs0, hslen]
            rfl
          have hb : (Option.some s).bind (jsIndex atoms) = jsIndex atoms s := rfl
          rw [hb]
          rcases hj : jsIndex atoms s with _ | a1 <;>
            exact ⟨fun _ => ⟨none, List.mem_cons_self _ _, hthrow⟩, fun _ => ⟨(), rfl⟩⟩
        · -- both serials parsed: this step never throws
          subst htv
          simp only [Option.map_some'] at ht0 htlen ⊢
          have hthrowf : conectStepThrows atoms (some s) (some (tv - 1)) = false := by
            simp [conectStepThrows]
          obtain ⟨a1, hj1⟩ := guard_resolves hs0 hslen
          obtain ⟨a2, hj2⟩ := guard_resolves ht0 htlen
          have hb1 : (Option.some s).bind (jsIndex atoms) = jsIndex atoms s := rfl
          have hb2 : (Option.some (tv - 1)).bind (jsIndex atoms) =
              jsIndex atoms (tv - 1) := rfl
          by_cases hk : (nanKey (jsMinO (some s) (some (tv - 1)))
              ++ "-" ++ nanKey (jsMaxO (some s) (some (tv - 1)))) ∈ seen
          · rw [if_pos hk]
            rw [ih bonds seen hseen]
            simp [hthrowf]
          · rw [if_neg hk]
            rw [hb1, hb2, hj1, hj2]
            dsimp only
            have hseen2 : ("NaN-NaN" : String) ∉
                (nanKey (jsMinO (some s) (some (tv - 1)))
                  ++ "-" ++ nanKey (jsMaxO (some s) (some (tv - 1)))) :: seen := by
              intro hmem
              rcases List.mem_cons.mp hmem with hm | hm
              · exact intKey_ne_nan (min s (tv - 1)) (max s (tv - 1)) hm.symm
              · exact hseen hm
            rw [ih _ _ hseen2]
            simp [hthrowf]

theorem conectTargets_ok_nanfree (atoms : List Viewer.Atom) (src : Option Int)
    (ts : List (Option Int)) :
    ∀ (st st' : List Viewer.Bond × List String),
      conectTargets atoms src ts st = .ok st' →
      ("NaN-NaN" : String) ∉ st.2 → ("NaN-NaN" : String) ∉ st'.2 := by
  induction ts with
  | nil =>
    intro st st' h hseen
    unfold conectTargets at h
    cases h
    exact hseen
  | cons t ts ih =>
    intro st st' h hseen
    obtain ⟨bonds, seen⟩ := st
    unfold conectTargets at h
    dsimp only at h
    split at h
    · exact ih _ _ h hseen
    · split at h
      · exact ih _ _ h hseen
      · split at h
        · rename_i a1 a2 heq1 heq2
          obtain ⟨s, hs, hj1⟩ := Option.bind_eq_some.mp heq1
          obtain ⟨w, hw, hj2⟩ := Option.bind_eq_some.mp heq2
          subst hs
          refine ih _ _ h ?_
          rw [hw]
          simp only [jsMinO, jsMaxO, nanKey, intOptToString]
          intro hmem
          rcases List.mem_cons.mp hmem with hm | hm
          · exact intKey_ne_nan (min s w) (max s w) hm.symm
          · exact hseen hm
        · exact Except.noConfusion h

theorem conectLines_error_iff (atoms : List Viewer.Atom) (ls : List String) :
    ∀ (bonds : List Viewer.Bond) (seen : List String), ("NaN-NaN" : String) ∉ seen →
      ((∃ e, conectLines atoms ls (bonds, seen) = .error e)
        ↔ ∃ l ∈ ls, conectLineThrows atoms l = true) := by
  induction ls with
  | nil =>
    intro bonds seen hseen
    simp [conectLines]
  | cons l ls ih =>
    intro bonds seen hseen
    unfold conectLines
    dsimp only
    split
    · rename_i e hc
      have hl : conectLineThrows atoms l = true := by
        unfold conectLineThrows
        simp only [List.any_eq_true]
        exact (conectTargets_error_iff atoms _ _ bonds seen hseen).mp ⟨e, hc⟩
      exact ⟨fun _ => ⟨l, List.mem_cons_self _ _, hl⟩, fun _ => ⟨e, rfl⟩⟩
    · rename_i st2 hc
      obtain ⟨bonds2, seen2⟩ := st2
      have hnf : ("NaN-NaN" : String) ∉ seen2 :=
        conectTargets_ok_nanfree atoms _ _ _ _ hc hseen
      rw [ih bonds2 seen2 hnf]
      have hl : conectLineThrows atoms l = false := by
        cases hal : conectLineThrows atoms l
        · rfl
        · exfalso
          unfold conectLineThrows at hal
          simp only [List.any_eq_true] at hal
          obtain ⟨e, he⟩ := (conectTargets_error_iff atoms _ _ bonds seen hseen).mpr hal
          rw [hc] at he
          exact Except.noConfusion he
      simp [hl]

theorem parsePDBBonds_error_iff (content : String) (atoms : List Viewer.Atom) :
    (∃ e, parsePDBBonds content atoms = .error e) ↔ pdbThrows content atoms = true := by
  unfold parsePDBBonds pdbThrows
  dsimp only
  by_cases h0 : ((jsSplit content "\n").filter (fun l => jsStartsWith l "CONECT")).length = 0
  · rw [if_pos h0]
    have hnil : (jsSplit content "\n").filter (fun l => jsStartsWith l "CONECT") = [] :=
      List.length_eq_zero.mp h0
    rw [hnil]
    simp
  · rw [if_neg h0]
    split
    · rename_i e hc
      have hthrow := (conectLines_error_iff atoms _ [] [] (by simp)).mp ⟨e, hc⟩
      exact ⟨fun _ => List.any_eq_true.mpr hthrow, fun _ => ⟨e, rfl⟩⟩
    · rename_i bonds2 seen2 hc
      have hfalse : ((jsSplit content "\n").filter
          (fun l => jsStartsWith l "CONECT")).any (conectLineThrows atoms) = false := by
        cases hal : ((jsSplit content "\n").filter
            (fun l => jsStartsWith l "CONECT")).any (conectLineThrows atoms)
        · rfl
        · exfalso
          obtain ⟨e, he⟩ := (conectLines_error_iff atoms _ [] [] (by simp)).mpr
            (List.any_eq_true.mp hal)
          rw [hc] at he
          exact Except.noConfusion he
      rw [hfalse]
      simp

/-- C10 (amended): `parsePDB` fails exactly when some CONECT record lets an
unparsable (NaN) serial survive the range guard — every comparison on NaN is
false, so the guard does not skip and `atoms[NaN].id` throws a TypeError.
Consequently it returns Success for every content with no CONECT record (in
particular the empty string and any content without ATOM/HETATM records,
which yield a molecule with zero atoms and zero bonds), and whenever
`parsePDBBonds` yields no valid bonds (`null`) the bonds fall back to
distance inference. -/
theorem parsePDB_success_amended :
    (∀ content name now,
      (parsePDB content name now).success = false ↔
        pdbThrows content ((jsSplit (jsTrim content) "\n").filterMap pdbAtomLine) = true) ∧
    (∀ content name now,
      ((jsSplit content "\n").filter (fun l => jsStartsWith l "CONECT")).length = 0 →
      (parsePDB content name now).success = true) ∧
    (∀ content name now mol,
      (parsePDB content name now).molecule = some mol →
      (∀ l ∈ jsSplit (jsTrim content) "\n",
        jsStartsWith l "ATOM" = false ∧ jsStartsWith l "HETATM" = false) →
      mol.atoms = [] ∧ mol.bonds = []) ∧
    (∀ content name now mol,
      (parsePDB content name now).molecule = some mol →
      parsePDBBonds content mol.atoms = .ok none →
      mol.bonds = generateBondsFromDistance mol.atoms) := by
  refine ⟨?_, ?_, ?_, ?_⟩
  · intro content name now
    unfold parsePDB
    dsimp only
    split
    · rename_i e hc
      constructor
      · intro _
        exact (parsePDBBonds_error_iff content _).mp ⟨e, hc⟩
      · intro _
        rfl
    · rename_i r hc
      constructor
      · intro hs
        exact Bool.noConfusion hs
      · intro hth
        obtain ⟨e, he⟩ := (parsePDBBonds_error_iff content _).mpr hth
        rw [hc] at he
        exact Except.noConfusion he
  · intro content name now h0
    unfold parsePDB
    dsimp only
    have hpb : parsePDBBonds content
        ((jsSplit (jsTrim content) "\n").filterMap pdbAtomLine) = .ok none := by
      unfold parsePDBBonds
      rw [if_pos h0]
    rw [hpb]
  · intro content name now mol hm hno
    have ha : (jsSplit (jsTrim content) "\n").filterMap pdbAtomLine = [] := by
      rw [List.filterMap_eq_nil_iff]
      intro l hl
      rcases hno l hl with ⟨h1, h2⟩
      simp [pdbAtomLine, h1, h2]
    unfold parsePDB at hm
    dsimp only at hm
    rw [ha] at hm
    rcases hpb : parsePDBBonds content [] with e | r <;> rw [hpb] at hm
    · exact absurd hm (by simp)
    · dsimp only at hm
      cases Option.some.inj hm
      refine ⟨rfl, ?_⟩
      show r.getD (generateBondsFromDistance []) = []
      rcases r with _ | bonds
      · decide
      · rcases bonds with _ | ⟨b, bs⟩
        · decide
        · rcases (parsePDBBonds_ok_endpoints hpb b (by simp)).1 with ⟨a, hma, _⟩
          exact absurd hma (by simp)
  · intro content name now mol hm hnone
    unfold parsePDB at hm
    dsimp only at hm
    rcases hpb : parsePDBBonds content
        ((jsSplit (jsTrim content) "\n").filterMap pdbAtomLine) with e | r <;>
      rw [hpb] at hm
    · exact absurd hm (by simp)
    · dsimp only at hm
      cases Option.some.inj hm
      rw [hpb] at hnone
      cases Except.ok.inj hnone
      rfl

/-- Witness for C10's amended statement: a valid CONECT-bearing content
succeeds while the NaN-serial content fails (both read off the
characterization), the empty content succeeds with an empty molecule, and
the zero-valid-CONECT fixture falls back to inference. -/
theorem parsePDB_success_amended_witness :
    ((parsePDB pdbConect12 none 0).success = true ∧
      (parsePDB "CONECT x y" none 0).success = false) ∧
    (parsePDB "" none 0).success = true ∧
    ((parsePDB "" none 0).molecule = some pdbEmptyMol ∧
      pdbEmptyMol.atoms = [] ∧ pdbEmptyMol.bonds = []) ∧
    ((parsePDB pdbConect79 none 0).molecule = some pdbConect79Mol ∧
      pdbConect79Mol.bonds = generateBondsFromDistance pdbConect79Mol.atoms) := by
  have hm0 : (parsePDB "" none 0).molecule = some pdbEmptyMol := by decide
  have hm1 : (parsePDB pdbConect79 none 0).molecule = some pdbConect79Mol := by decide
  have hok : (parsePDB pdbConect12 none 0).success = true := by
    cases hcase : (parsePDB pdbConect12 none 0).success
    · exact absurd ((parsePDB_success_amended.1 pdbConect12 none 0).mp hcase) (by decide)
    · rfl
  exact ⟨⟨hok, (parsePDB_success_amended.1 "CONECT x y" none 0).mpr (by decide)⟩,
    parsePDB_success_amended.2.1 "" none 0 (by decide),
    ⟨hm0, parsePDB_success_amended.2.2.1 "" none 0 pdbEmptyMol hm0 (by decide)⟩,
    ⟨hm1, parsePDB_success_amended.2.2.2 pdbConect79 none 0 pdbConect79Mol hm1 (by decide)⟩⟩
